import Mathlib

/-!
# Entity runtime, Bézier trajectory, camera and loaders of the Hello3D scene

A shallow embedding of `src/src/Entity.cpp`, `src/src/Entity.h` and
`src/src/Camera.cpp`.

Numbers.  A C++ `float` holding a finite value is modelled by the rational
number it denotes.  Every arithmetic operation of the source is the exact
operation followed by `roundF32`, the IEEE-754 binary32 rounding (to nearest,
ties to even, subnormals included).  Infinities and NaN are outside the model:
`roundF32` does not saturate, and no value of the model is a NaN.  A rounded value
above `fltMax` in magnitude is where binary32 overflows; the statements about
arbitrary points bound every rounded value by `fltMax`.
-/

namespace Hello3D

/-! ## binary32 arithmetic -/

/-- Floor of the base-2 logarithm of `n` (0 for `n < 2`); the first argument is fuel,
any value `≥ n` is enough. -/
def floorLog2 : Nat → Nat → Nat
  | 0, _ => 0
  | fuel + 1, n => if n < 2 then 0 else floorLog2 fuel (n / 2) + 1

/-- The binary exponent `e` of a positive fraction `n / d`: `2^e ≤ n / d < 2^(e+1)`. -/
def binExponent (n d : Nat) : Int :=
  let e0 : Int := (floorLog2 n n : Int) - (floorLog2 d d : Int)
  let below : Bool :=
    if 0 ≤ e0 then decide (n < d * 2 ^ e0.toNat) else decide (n * 2 ^ (-e0).toNat < d)
  if below then e0 - 1 else e0

/-- Nearest integer to `N / D`, ties to the even one. -/
def roundHalfEven (N D : Nat) : Nat :=
  let k := N / D
  let r := N % D
  if 2 * r < D then k else if D < 2 * r then k + 1 else if k % 2 = 0 then k else k + 1

/-- Rounding of a positive fraction `n / d` to binary32: 24 significant bits, the
unit in the last place never below `2^-149`. -/
def roundPosF32 (n d : Nat) : ℚ :=
  let s : Int := max (binExponent n d) (-126) - 23
  if s ≤ 0 then Rat.divInt (roundHalfEven (n * 2 ^ (-s).toNat) d) (2 ^ (-s).toNat)
  else ((roundHalfEven n (d * 2 ^ s.toNat) * 2 ^ s.toNat : Nat) : ℚ)

/-- IEEE-754 binary32 rounding of a rational, to nearest, ties to even. -/
def roundF32 (q : ℚ) : ℚ :=
  if q = 0 then 0
  else if q < 0 then -roundPosF32 q.num.natAbs q.den
  else roundPosF32 q.num.natAbs q.den

/-- `a + b` on `float`. -/
def fadd (a b : ℚ) : ℚ := roundF32 (a + b)

/-- `a - b` on `float`. -/
def fsub (a b : ℚ) : ℚ := roundF32 (a - b)

/-- `a * b` on `float`. -/
def fmul (a b : ℚ) : ℚ := roundF32 (a * b)

/-- `a / b` on `float`. -/
def fdiv (a b : ℚ) : ℚ := roundF32 (a / b)

/-- A rational that is a binary32 value. -/
def IsF32 (q : ℚ) : Prop := roundF32 q = q

instance (q : ℚ) : Decidable (IsF32 q) := by unfold IsF32; infer_instance

/-- The literal `0.1f`. -/
def lit0_1 : ℚ := 13421773 / 134217728

/-- The literal `0.001f`. -/
def lit0_001 : ℚ := 8589935 / 8589934592

/-- The constant of `glm::radians`,
`static_cast<float>(0.01745329251994329576923690768489)`. -/
def degToRad : ℚ := 9370165 / 536870912

/-- `std::min(a, b)`: `(b < a) ? b : a`. -/
def stdMin (a b : ℚ) : ℚ := if b < a then b else a

/-- `std::max(a, b)`: `(a < b) ? b : a`. -/
def stdMax (a b : ℚ) : ℚ := if a < b then b else a

/-! ## vectors -/

/-- `glm::vec3` with finite components. -/
structure Vec3 where
  x : ℚ
  y : ℚ
  z : ℚ
  deriving DecidableEq

/-- `glm::vec3 + glm::vec3`. -/
def Vec3.add (a b : Vec3) : Vec3 := ⟨fadd a.x b.x, fadd a.y b.y, fadd a.z b.z⟩

/-- `float * glm::vec3`. -/
def Vec3.smul (s : ℚ) (v : Vec3) : Vec3 := ⟨fmul s v.x, fmul s v.y, fmul s v.z⟩

/-- `glm::radians(glm::vec3)`: every component times the degree-to-radian constant. -/
def radians (v : Vec3) : Vec3 := ⟨fmul v.x degToRad, fmul v.y degToRad, fmul v.z degToRad⟩

/-- All three components are binary32 values. -/
def Vec3.IsF32 (v : Vec3) : Prop := Hello3D.IsF32 v.x ∧ Hello3D.IsF32 v.y ∧ Hello3D.IsF32 v.z

/-- `cubicBezier` of `Entity.cpp`, with the source's association of the products
and of the sum. -/
def cubicBezier (p0 p1 p2 p3 : Vec3) (t : ℚ) : Vec3 :=
  let u := fsub 1 t
  Vec3.add
    (Vec3.add
      (Vec3.add (Vec3.smul (fmul (fmul u u) u) p0)
        (Vec3.smul (fmul (fmul (fmul 3 u) u) t) p1))
      (Vec3.smul (fmul (fmul (fmul 3 u) t) t) p2))
    (Vec3.smul (fmul (fmul t t) t) p3)

/-! ## the entity -/

/-- The data members of `class Entity`.  The material coefficients are `none` while
they hold an indeterminate value (see `loadMaterial`). -/
structure Entity where
  followBezier : Bool
  position : Vec3
  rotation : Vec3
  baseColor : Vec3
  initialRotation : Vec3
  scaleFactor : ℚ
  rotateX : Bool
  rotateY : Bool
  rotateZ : Bool
  VAO : Nat
  textureID : Nat
  nVertices : Int
  shaderProgram : Nat
  objFilePath : String
  mtlFilePath : String
  textureFilePath : String
  ka : Option ℚ
  kd : Option ℚ
  ks : Option ℚ
  shininess : Option ℚ
  bezierControlPoints : List Vec3
  bezierRotations : List Vec3
  bezierT : ℚ
  bezierSpeed : ℚ

/-- The constructor `Entity::Entity` with the default member initialisers of
`Entity.h`.  `rotation` is not initialised by the source; `rotation0` stands for
whatever the member holds. -/
def Entity.new (x y z : ℚ) (baseColor : Vec3) (initialScale : ℚ)
    (objFilePath mtlFilePath textureFilePath : String) (initialRotation : Vec3)
    (rotation0 : Vec3) : Entity :=
  { followBezier := false
    position := ⟨x, y, z⟩
    rotation := rotation0
    baseColor := baseColor
    initialRotation := initialRotation
    scaleFactor := initialScale
    rotateX := false
    rotateY := false
    rotateZ := false
    VAO := 0
    textureID := 0
    nVertices := 0
    shaderProgram := 0
    objFilePath := objFilePath
    mtlFilePath := mtlFilePath
    textureFilePath := textureFilePath
    ka := some lit0_1
    kd := some (1 / 2)
    ks := some (1 / 2)
    shininess := some 10
    bezierControlPoints := []
    bezierRotations := []
    bezierT := 0
    bezierSpeed := lit0_001 }

/-- `Entity::updateBezierTrajectory`.  The guard of the source (flag set, both arrays
of size 4) is the first pattern; every other state is returned unchanged. -/
def Entity.updateBezierTrajectory (e : Entity) : Entity :=
  match e.followBezier, e.bezierControlPoints, e.bezierRotations with
  | true, [p0, p1, p2, p3], [r0, r1, r2, r3] =>
    let t1 := fadd e.bezierT e.bezierSpeed
    { e with
      position := cubicBezier p0 p1 p2 p3 e.bezierT
      rotation := radians (cubicBezier r0 r1 r2 r3 e.bezierT)
      bezierT := if t1 > 1 then 0 else t1 }
  | _, _, _ => e

/-- The base rotation `Entity::draw` applies after the scale (Entity.cpp:420-431):
`rotation` while `followBezier` is set, else `initialRotation`. -/
def Entity.drawRotation (e : Entity) : Vec3 :=
  if e.followBezier then e.rotation else e.initialRotation

/-- `Entity::toggleRotateX`. -/
def Entity.toggleRotateX (e : Entity) : Entity :=
  { e with rotateX := !e.rotateX, rotateY := false, rotateZ := false }

/-- `Entity::toggleRotateY`. -/
def Entity.toggleRotateY (e : Entity) : Entity :=
  { e with rotateX := false, rotateY := !e.rotateY, rotateZ := false }

/-- `Entity::toggleRotateZ`. -/
def Entity.toggleRotateZ (e : Entity) : Entity :=
  { e with rotateX := false, rotateY := false, rotateZ := !e.rotateZ }

/-- `Entity::scaleUp`. -/
def Entity.scaleUp (e : Entity) : Entity :=
  { e with scaleFactor := stdMin (fadd e.scaleFactor lit0_1) 1 }

/-- `Entity::scaleDown`. -/
def Entity.scaleDown (e : Entity) : Entity :=
  { e with scaleFactor := stdMax (fsub e.scaleFactor lit0_1) lit0_1 }

/-- `Entity::moveForward`, with `TRANSLATION_SPEED = 0.1f`. -/
def Entity.moveForward (e : Entity) : Entity :=
  { e with position := { e.position with z := fsub e.position.z lit0_1 } }

/-- `Entity::moveBackward`. -/
def Entity.moveBackward (e : Entity) : Entity :=
  { e with position := { e.position with z := fadd e.position.z lit0_1 } }

/-- One of the three rotation keys. -/
inductive RotKey
  | X
  | Y
  | Z
  deriving DecidableEq

/-- The toggle a rotation key calls. -/
def Entity.toggle (e : Entity) : RotKey → Entity
  | RotKey.X => e.toggleRotateX
  | RotKey.Y => e.toggleRotateY
  | RotKey.Z => e.toggleRotateZ

/-- The progress parameter after one active `updateBezierTrajectory`. -/
def advanceT (speed t : ℚ) : ℚ :=
  let t1 := fadd t speed
  if t1 > 1 then 0 else t1

/-- What the progress invariant asks of a value `t` and of its successor: `t` in
`[0, 1)`, and a successor that went down lies in `[0, step)`. -/
def tickOK (t : ℚ) : Bool :=
  decide (0 ≤ t) && decide (t < 1) &&
    (!decide (advanceT lit0_001 t < t) ||
      (decide (0 ≤ advanceT lit0_001 t) && decide (advanceT lit0_001 t < lit0_001)))

/-- `tickOK` on the first `n` values reached from `t`, and the `n`-th value is `0`
again. -/
def checkOrbit : Nat → ℚ → Bool
  | 0, t => decide (t = 0)
  | n + 1, t => tickOK t && checkOrbit n (advanceT lit0_001 t)

/-! ## input streams

`std::istringstream` over one line, with the two state bits the loaders depend on.
The extraction operators follow the C++ standard and, for the accepted spelling of
numbers, libstdc++ in the "C" locale: decimal digits, an optional sign, for `float`
an optional fraction and exponent.  An extraction returns `none` for the value when
the operator did not write its variable. -/

/-- One line of an input file, as `std::getline` returns it. -/
abbrev Line := String

/-- The contents of a file as the lines `std::getline` yields; `none` when the file
cannot be opened. -/
abbrev File := Option (List Line)

/-- `std::isspace` in the "C" locale: space, `\t`, `\n`, `\v`, `\f`, `\r`. -/
def isSpace (c : Char) : Bool :=
  c.toNat = 32 || (9 ≤ c.toNat && c.toNat ≤ 13)

/-- A decimal digit. -/
def isDigit (c : Char) : Bool := 48 ≤ c.toNat && c.toNat ≤ 57

/-- The number a run of decimal digits spells. -/
def digitsToNat (ds : List Char) : Nat :=
  ds.foldl (fun n c => 10 * n + (c.toNat - 48)) 0

/-- The unread characters of a stream, `eofbit` and `failbit`. -/
structure IStream where
  buf : List Char
  eofbit : Bool
  failbit : Bool

/-- A fresh `std::istringstream` over a line. -/
def IStream.ofLine (l : Line) : IStream := ⟨l.toList, false, false⟩

/-- A fresh `std::istringstream` over characters. -/
def IStream.ofChars (l : List Char) : IStream := ⟨l, false, false⟩

/-- `good()`. -/
def IStream.good (s : IStream) : Bool := !s.eofbit && !s.failbit

/-- The `sentry` of a formatted extraction: a stream that is not good gets `failbit`;
otherwise white space is skipped, and reaching the end sets `eofbit` and `failbit`.
The flag tells whether the extraction may go on. -/
def IStream.sentry (s : IStream) : Bool × IStream :=
  if s.good then
    match s.buf.dropWhile isSpace with
    | [] => (false, ⟨[], true, true⟩)
    | c :: cs => (true, ⟨c :: cs, false, false⟩)
  else (false, { s with failbit := true })

/-- `ss >> word` for a `std::string`: the run of characters up to the next white
space. -/
def IStream.readWord (s : IStream) : Option (List Char) × IStream :=
  match s.sentry with
  | (false, s1) => (none, s1)
  | (true, s1) =>
    let rest := s1.buf.dropWhile (fun c => !isSpace c)
    (some (s1.buf.takeWhile (fun c => !isSpace c)), ⟨rest, rest.isEmpty, false⟩)

/-- An optional sign: whether it is `-`, and the characters after it. -/
def scanSign : List Char → Bool × List Char
  | c :: cs => if c.toNat = 45 then (true, cs) else if c.toNat = 43 then (false, cs)
    else (false, c :: cs)
  | [] => (false, [])

/-- `UINT_MAX`. -/
def uintMax : Nat := 4294967295

/-- `ss >> n` for an `unsigned int`: sign, decimal digits.  No digit: `0` is written
and `failbit` set; a number above `UINT_MAX`: `UINT_MAX` is written and `failbit`
set; a `-` negates modulo `2^32`. -/
def IStream.readUInt (s : IStream) : Option Nat × IStream :=
  match s.sentry with
  | (false, s1) => (none, s1)
  | (true, s1) =>
    let sg := scanSign s1.buf
    let ds := sg.2.takeWhile isDigit
    let rest := sg.2.dropWhile isDigit
    if ds.isEmpty then (some 0, ⟨rest, rest.isEmpty, true⟩)
    else if uintMax < digitsToNat ds then (some uintMax, ⟨rest, rest.isEmpty, true⟩)
    else if sg.1 then (some ((uintMax + 1 - digitsToNat ds) % (uintMax + 1)),
      ⟨rest, rest.isEmpty, false⟩)
    else (some (digitsToNat ds), ⟨rest, rest.isEmpty, false⟩)

/-- `FLT_MAX`. -/
def fltMax : ℚ := (2 ^ 24 - 1) * 2 ^ 104

/-- The spelling of a `float` read from a stream. -/
structure FloatToken where
  neg : Bool
  intDigits : List Char
  fracDigits : List Char
  hasExp : Bool
  expNeg : Bool
  expDigits : List Char

/-- The exponent part after the mantissa: `e` or `E`, a sign, digits.  It is read
only after a mantissa digit. -/
def scanExponent (mantissa : Bool) : List Char → (Bool × Bool × List Char) × List Char
  | c :: cs =>
    if (c.toNat = 101 || c.toNat = 69) && mantissa then
      let sg := scanSign cs
      ((true, sg.1, sg.2.takeWhile isDigit), sg.2.dropWhile isDigit)
    else ((false, false, []), c :: cs)
  | [] => ((false, false, []), [])

/-- The fraction after the integer digits: a `.` and digits. -/
def scanFraction : List Char → List Char × List Char
  | c :: cs =>
    if c.toNat = 46 then (cs.takeWhile isDigit, cs.dropWhile isDigit) else ([], c :: cs)
  | [] => ([], [])

/-- The longest spelling of a `float` at the head of the characters, and what
follows it. -/
def scanFloat (cs : List Char) : FloatToken × List Char :=
  let sg := scanSign cs
  let ints := sg.2.takeWhile isDigit
  let fr := scanFraction (sg.2.dropWhile isDigit)
  let ex := scanExponent (!ints.isEmpty || !fr.1.isEmpty) fr.2
  (⟨sg.1, ints, fr.1, ex.1.1, ex.1.2.1, ex.1.2.2⟩, ex.2)

/-- The number a spelling denotes; `none` when it has no mantissa digit, or an
exponent mark without exponent digits. -/
def FloatToken.value (t : FloatToken) : Option ℚ :=
  if t.intDigits.isEmpty && t.fracDigits.isEmpty then none
  else if t.hasExp && t.expDigits.isEmpty then none
  else
    let m : ℚ := (digitsToNat (t.intDigits ++ t.fracDigits) : ℚ) / 10 ^ t.fracDigits.length
    let v : ℚ := if t.expNeg then m / 10 ^ digitsToNat t.expDigits
      else m * 10 ^ digitsToNat t.expDigits
    some (if t.neg then -v else v)

/-- `ss >> x` for a `float`: the value rounded to binary32.  A spelling that is no
number writes `0` and sets `failbit`; a value beyond `FLT_MAX` writes `±FLT_MAX` and
sets `failbit`. -/
def IStream.readFloat (s : IStream) : Option ℚ × IStream :=
  match s.sentry with
  | (false, s1) => (none, s1)
  | (true, s1) =>
    let sc := scanFloat s1.buf
    match sc.1.value with
    | none => (some 0, ⟨sc.2, sc.2.isEmpty, true⟩)
    | some q =>
      if fltMax < roundF32 q then (some fltMax, ⟨sc.2, sc.2.isEmpty, true⟩)
      else if roundF32 q < -fltMax then (some (-fltMax), ⟨sc.2, sc.2.isEmpty, true⟩)
      else (some (roundF32 q), ⟨sc.2, sc.2.isEmpty, false⟩)

/-- `ss >> x₁ >> … >> xₙ` for `float`s: what each extraction wrote, and the stream
after the last. -/
def readFloats : Nat → IStream → List (Option ℚ) × IStream
  | 0, s => ([], s)
  | n + 1, s =>
    let r := s.readFloat
    let rs := readFloats n r.2
    (r.1 :: rs.1, rs.2)

/-- The tag of a line: the `std::string prefix` after `ss >> prefix`, empty when
nothing was read; and the stream behind it. -/
def readTag (l : Line) : List Char × IStream :=
  let r := (IStream.ofLine l).readWord
  (r.1.getD [], r.2)

/-! ## the trajectory loader -/

/-- One line of a trajectory file: the six floats `px py pz rx ry rz` when
`ss >> px >> py >> pz >> rx >> ry >> rz` succeeds, else `none` (the line is reported
as malformed). -/
def trajectoryRecord (l : Line) : Option (Vec3 × Vec3) :=
  match readFloats 6 (IStream.ofLine l) with
  | ([some px, some py, some pz, some rx, some ry, some rz], s) =>
    if s.failbit then none else some (⟨px, py, pz⟩, ⟨rx, ry, rz⟩)
  | _ => none

/-- The records of the well-formed lines of a trajectory file, in file order. -/
def trajectoryRecords (lines : List Line) : List (Vec3 × Vec3) :=
  lines.filterMap trajectoryRecord

/-- The end of `Entity::loadBezierControlPoints`, after `in.close()`: with 4 control
points and 4 rotations the entity is put on the first ones and the trajectory
enabled; with another count only the message is printed.  `cps` and `rots` are the
two arrays as the reading loop filled them. -/
def Entity.activateBezier (e : Entity) (cps rots : List Vec3) : Entity :=
  match cps, rots with
  | [p0, p1, p2, p3], [r0, r1, r2, r3] =>
    { e with
      bezierControlPoints := [p0, p1, p2, p3]
      bezierRotations := [r0, r1, r2, r3]
      position := p0
      rotation := r0
      bezierT := 0
      followBezier := true }
  | _, _ => { e with bezierControlPoints := cps, bezierRotations := rots }

/-- `Entity::loadBezierControlPoints`.  A file that cannot be opened changes
nothing.  Otherwise both arrays are cleared and refilled from the well-formed
lines. -/
def Entity.loadBezierControlPoints (e : Entity) (file : File) : Entity :=
  match file with
  | none => e
  | some lines =>
    e.activateBezier ((trajectoryRecords lines).map Prod.fst)
      ((trajectoryRecords lines).map Prod.snd)

/-! ## the material loader -/

/-- `(r + g + b) / 3.0f`; indeterminate when an operand is. -/
def meanRGB : List (Option ℚ) → Option ℚ
  | [some r, some g, some b] => some (fdiv (fadd (fadd r g) b) 3)
  | _ => none

/-- One iteration of the `while (std::getline(file, line))` loop of
`Entity::loadMaterial`.  `float r, g, b` are not initialised: a component the stream
did not write is indeterminate. -/
def materialLine (e : Entity) (l : Line) : Entity :=
  let pfx := (readTag l).1
  let ss := (readTag l).2
  if pfx = "Ka".toList then { e with ka := meanRGB (readFloats 3 ss).1 }
  else if pfx = "Kd".toList then { e with kd := meanRGB (readFloats 3 ss).1 }
  else if pfx = "Ks".toList then { e with ks := meanRGB (readFloats 3 ss).1 }
  else if pfx = "Ns".toList then
    { e with shininess := match ss.readFloat.1 with
        | some v => some v
        | none => e.shininess }
  else e

/-- `Entity::loadMaterial`. -/
def Entity.loadMaterial (e : Entity) (file : File) : Entity :=
  match file with
  | none => e
  | some lines => lines.foldl materialLine e

/-! ## the geometry loader -/

/-- A `glm::vec3` local of the parser; a component is `none` while indeterminate. -/
structure RawVec3 where
  x : Option ℚ
  y : Option ℚ
  z : Option ℚ
  deriving DecidableEq

/-- A `glm::vec2` local of the parser. -/
structure RawVec2 where
  x : Option ℚ
  y : Option ℚ
  deriving DecidableEq

/-- The vectors `loadModelWithTexture` fills while it reads the file.  An index is
`none` when the `unsigned int` it was computed from was indeterminate. -/
structure ModelData where
  temp_positions : List RawVec3
  temp_uvs : List RawVec2
  temp_normals : List RawVec3
  vertexIndices : List (Option Nat)
  uvIndices : List (Option Nat)
  normalIndices : List (Option Nat)

/-- The six vectors before the first line. -/
def ModelData.empty : ModelData := ⟨[], [], [], [], [], []⟩

/-- `v - 1` on `unsigned int`. -/
def pred32 (v : Nat) : Nat := (v + uintMax) % (uintMax + 1)

/-- One vertex reference `v/vt/vn` as the parser reads it. -/
structure FaceRef where
  v : Option Nat
  vt : Option Nat
  vn : Option Nat
  deriving DecidableEq

/-- One iteration of the `for (int i = 0; i < 3; ++i)` loop: `ss >> vertexStr`, the
slashes replaced by spaces, then `viss >> v >> vt >> vn` on locals that are not
initialised. -/
def readFaceRef (ss : IStream) : FaceRef × IStream :=
  let w := ss.readWord
  let vertexStr := (w.1.getD []).map (fun c => if c.toNat = 47 then Char.ofNat 32 else c)
  let r1 := (IStream.ofChars vertexStr).readUInt
  let r2 := r1.2.readUInt
  let r3 := r2.2.readUInt
  (⟨r1.1, r2.1, r3.1⟩, w.2)

/-- The three references read from the stream of an `f` line. -/
def readFaceRefs (ss : IStream) : List FaceRef :=
  let a := readFaceRef ss
  let b := readFaceRef a.2
  let c := readFaceRef b.2
  [a.1, b.1, c.1]

/-- One iteration of the `while (std::getline(file, line))` loop of
`Entity::loadModelWithTexture`. -/
def modelLine (d : ModelData) (l : Line) : ModelData :=
  let pfx := (readTag l).1
  let ss := (readTag l).2
  if pfx = "v".toList then
    match (readFloats 3 ss).1 with
    | [x, y, z] => { d with temp_positions := d.temp_positions ++ [⟨x, y, z⟩] }
    | _ => d
  else if pfx = "vt".toList then
    match (readFloats 2 ss).1 with
    | [x, y] => { d with temp_uvs := d.temp_uvs ++ [⟨x, y⟩] }
    | _ => d
  else if pfx = "vn".toList then
    match (readFloats 3 ss).1 with
    | [x, y, z] => { d with temp_normals := d.temp_normals ++ [⟨x, y, z⟩] }
    | _ => d
  else if pfx = "f".toList then
    { d with
      vertexIndices := d.vertexIndices ++ (readFaceRefs ss).map (fun r => r.v.map pred32)
      uvIndices := d.uvIndices ++ (readFaceRefs ss).map (fun r => r.vt.map pred32)
      normalIndices := d.normalIndices ++ (readFaceRefs ss).map (fun r => r.vn.map pred32) }
  else d

/-- The six vectors after the whole file was read. -/
def parseModel (lines : List Line) : ModelData :=
  lines.foldl modelLine ModelData.empty

/-- `vec[i]` of a `std::vector`: `none` (undefined behaviour) when the index is
indeterminate or not below the size. -/
def subscript {α : Type} (vec : List α) (i : Option Nat) : Option α :=
  match i with
  | some k => vec[k]?
  | none => none

/-- The loop that fills `vertexData`: for every `i` below `vertexIndices.size()` the
eight floats of `temp_positions[vertexIndices[i]]`, `temp_uvs[uvIndices[i]]`,
`temp_normals[normalIndices[i]]`.  `none` when a subscript is out of range. -/
def buildVertexData (d : ModelData) :
    List (Option Nat) → List (Option Nat) → List (Option Nat) → Option (List (Option ℚ))
  | [], _, _ => some []
  | _ :: _, [], _ => none
  | _ :: _, _ :: _, [] => none
  | v :: vs, t :: ts, n :: ns =>
    match subscript d.temp_positions v, subscript d.temp_uvs t, subscript d.temp_normals n,
      buildVertexData d vs ts ns with
    | some pos, some uv, some norm, some more =>
      some ([pos.x, pos.y, pos.z, uv.x, uv.y, norm.x, norm.y, norm.z] ++ more)
    | _, _, _, _ => none

/-- The conversion `(int)` of a `size_t`: the value modulo `2^32`, read as a signed
32-bit number. -/
def castInt (n : Nat) : Int :=
  if n % 4294967296 < 2147483648 then ((n % 4294967296 : Nat) : Int)
  else ((n % 4294967296 : Nat) : Int) - 4294967296

/-- What a call of `loadModelWithTexture` comes to. -/
inductive LoadResult
  /-- `return -1`: the model file could not be opened; no output is written. -/
  | openError
  /-- A subscript outside its vector was evaluated: undefined behaviour. -/
  | undefinedRead
  /-- `return VAO`, with the uploaded buffer and the two outputs. -/
  | loaded (vao : Nat) (vertexData : List (Option ℚ)) (outVertices : Int) (outTextureID : Nat)
  deriving DecidableEq

/-- `Entity::loadModelWithTexture`.  `newVAO` is the name `glGenVertexArrays` hands
out and `loadTexture` the texture loader; the OpenGL calls have no other effect on
the result.  `outVertices` is `(int)(vertexIndices.size())`.  The parameter
`mtlFilePath` of the source is not used by it. -/
def loadModelWithTexture (newVAO : Nat) (loadTexture : String → Nat) (objFile : File)
    (textureFilePath : String) : LoadResult :=
  match objFile with
  | none => LoadResult.openError
  | some lines =>
    let d := parseModel lines
    match buildVertexData d d.vertexIndices d.uvIndices d.normalIndices with
    | none => LoadResult.undefinedRead
    | some vertexData =>
      LoadResult.loaded newVAO vertexData (castInt d.vertexIndices.length)
        (if textureFilePath.isEmpty then 0 else loadTexture textureFilePath)

/-! ## the camera -/

/-- The functions of the math library `Camera.cpp` calls; they are not part of the
repository. -/
structure GlmMath where
  cos : ℚ → ℚ
  sin : ℚ → ℚ
  normalize : Vec3 → Vec3
  cross : Vec3 → Vec3 → Vec3

/-- The data members of `class Camera`. -/
structure Camera where
  position : Vec3
  front : Vec3
  up : Vec3
  right : Vec3
  worldUp : Vec3
  fov : ℚ
  yaw : ℚ
  pitch : ℚ
  speed : ℚ
  sensitivity : ℚ

/-- `Camera::updateCameraVectors`. -/
def Camera.updateCameraVectors (m : GlmMath) (c : Camera) : Camera :=
  let f : Vec3 :=
    ⟨fmul (m.cos (fmul c.yaw degToRad)) (m.cos (fmul c.pitch degToRad)),
      m.sin (fmul c.pitch degToRad),
      fmul (m.sin (fmul c.yaw degToRad)) (m.cos (fmul c.pitch degToRad))⟩
  let front := m.normalize f
  let right := m.normalize (m.cross front c.worldUp)
  { c with front := front, right := right, up := m.normalize (m.cross right front) }

/-- `Camera::processMouseMovement`. -/
def Camera.processMouseMovement (m : GlmMath) (c : Camera) (xoffset yoffset : ℚ) : Camera :=
  let xoffset := fmul xoffset c.sensitivity
  let yoffset := fmul yoffset c.sensitivity
  let yaw := fadd c.yaw xoffset
  let pitch := fadd c.pitch yoffset
  let pitch := if pitch > 89 then 89 else pitch
  let pitch := if pitch < -89 then -89 else pitch
  Camera.updateCameraVectors m { c with yaw := yaw, pitch := pitch }

/-! ## predicates and sample inputs of the statements -/

instance (v : Vec3) : Decidable v.IsF32 := by unfold Vec3.IsF32; infer_instance

/-- At most one of the three auto-rotation flags is set. -/
def Entity.atMostOneRotation (e : Entity) : Prop :=
  ¬(e.rotateX = true ∧ e.rotateY = true) ∧ ¬(e.rotateX = true ∧ e.rotateZ = true) ∧
    ¬(e.rotateY = true ∧ e.rotateZ = true)

/-- The state after a sequence of rotation keys. -/
def Entity.afterKeys (e : Entity) (keys : List RotKey) : Entity := keys.foldl Entity.toggle e

/-- A trajectory file with four records. -/
def sampleTrajectory : List Line :=
  ["0 0 0 0 0 0", "1 2 0 0 90 0", "2 2 0 0 180 0", "3 0 0.5 0 270 45"]

/-- A constructed entity, as `loadSceneFromJSON` builds one. -/
def sampleEntity : Entity :=
  Entity.new 1 2 3 ⟨0, 0, 0⟩ (1 / 2) "cube.obj" "cube.mtl" "cube.png" ⟨0, 0, 0⟩ ⟨7, 7, 7⟩

/-- A camera with the constructor's speed and sensitivity (`0.05f`, `0.1f`). -/
def sampleCamera : Camera :=
  { position := ⟨0, 0, 3⟩, front := ⟨0, 0, -1⟩, up := ⟨0, 1, 0⟩, right := ⟨1, 0, 0⟩,
    worldUp := ⟨0, 1, 0⟩, fov := 100, yaw := -90, pitch := 0,
    speed := 13421773 / 268435456, sensitivity := lit0_1 }

/-- A stand-in for the math library in closed examples. -/
def sampleMath : GlmMath :=
  { cos := fun _ => 1, sin := fun _ => 0, normalize := fun v => v, cross := fun a _ => a }

/-- A trajectory file with three records only. -/
def shortTrajectory : List Line := ["0 0 0 0 0 0", "1 2 0 0 90 0", "2 2 0 0 180 0"]

/-- The sample entity after its trajectory file was loaded. -/
def loadedEntity : Entity := sampleEntity.loadBezierControlPoints (some sampleTrajectory)

/-- The vertex references the parser reads from one line: three for an `f` line,
none for another line. -/
def lineFaceRefs (l : Line) : List FaceRef :=
  if (readTag l).1 = "f".toList then readFaceRefs (readTag l).2 else []

/-- The vertex references of a file, in file order. -/
def faceRefs : List Line → List FaceRef
  | [] => []
  | l :: ls => lineFaceRefs l ++ faceRefs ls

/-- The number of `f` lines of a file. -/
def faceLineCount : List Line → Nat
  | [] => 0
  | l :: ls => (if (readTag l).1 = "f".toList then 1 else 0) + faceLineCount ls

/-- A reference `v/vt/vn` with all three indices present. -/
def FaceRef.ofTriple (r : Nat × Nat × Nat) : FaceRef := ⟨some r.1, some r.2.1, some r.2.2⟩

/-- The eight floats of the vertex a reference `v/vt/vn` names:
`position[v-1]`, `uv[vt-1]`, `normal[vn-1]`. -/
def vertexFloats (d : ModelData) (r : Nat × Nat × Nat) : List (Option ℚ) :=
  [(d.temp_positions.getD (r.1 - 1) ⟨none, none, none⟩).x,
    (d.temp_positions.getD (r.1 - 1) ⟨none, none, none⟩).y,
    (d.temp_positions.getD (r.1 - 1) ⟨none, none, none⟩).z,
    (d.temp_uvs.getD (r.2.1 - 1) ⟨none, none⟩).x,
    (d.temp_uvs.getD (r.2.1 - 1) ⟨none, none⟩).y,
    (d.temp_normals.getD (r.2.2 - 1) ⟨none, none, none⟩).x,
    (d.temp_normals.getD (r.2.2 - 1) ⟨none, none, none⟩).y,
    (d.temp_normals.getD (r.2.2 - 1) ⟨none, none, none⟩).z]

/-- The vertices of a list of references, one after the other. -/
def expandRefs (d : ModelData) : List (Nat × Nat × Nat) → List (Option ℚ)
  | [] => []
  | r :: rs => vertexFloats d r ++ expandRefs d rs

/-- The references are all inside the parsed arrays: `1 ≤ index ≤ size`. -/
def refsInRange (d : ModelData) (refs : List (Nat × Nat × Nat)) : Prop :=
  ∀ r ∈ refs, (1 ≤ r.1 ∧ r.1 ≤ d.temp_positions.length) ∧
    (1 ≤ r.2.1 ∧ r.2.1 ≤ d.temp_uvs.length) ∧ (1 ≤ r.2.2 ∧ r.2.2 ≤ d.temp_normals.length)

instance (d : ModelData) (refs : List (Nat × Nat × Nat)) : Decidable (refsInRange d refs) := by
  unfold refsInRange; infer_instance

/-- An index that is `0` or above the size of its array. -/
def badIndex (size : Nat) (i : Option Nat) : Prop :=
  ∃ k, i = some k ∧ (k = 0 ∨ size < k)

/-- A reference with an index `0` or above the size of its array. -/
def FaceRef.outOfRange (d : ModelData) (r : FaceRef) : Prop :=
  badIndex d.temp_positions.length r.v ∨ badIndex d.temp_uvs.length r.vt ∨
    badIndex d.temp_normals.length r.vn

/-- A model file with one triangle: 3 `v`, 3 `vt`, 3 `vn`, 1 `f`. -/
def sampleObj : List Line :=
  ["# triangle", "v 0 0 0", "v 1 0 0", "v 0 1 0", "vt 0 0", "vt 1 0", "vt 0 1",
    "vn 0 0 1", "vn 0 0 1", "vn 0 0 1", "f 1/1/1 2/2/2 3/3/3"]

/-- The same arrays with a face that names vertex 99. -/
def farIndexObj : List Line :=
  ["v 0 0 0", "v 1 0 0", "v 0 1 0", "vt 0 0", "vt 1 0", "vt 0 1",
    "vn 0 0 1", "vn 0 0 1", "vn 0 0 1", "f 99/1/1 2/2/2 3/3/3"]

/-- The same arrays with a face that names vertex 0. -/
def zeroIndexObj : List Line :=
  ["v 0 0 0", "v 1 0 0", "v 0 1 0", "vt 0 0", "vt 1 0", "vt 0 1",
    "vn 0 0 1", "vn 0 0 1", "vn 0 0 1", "f 0/1/1 2/2/2 3/3/3"]

/-- Every index the parser reads is an `unsigned int`. -/
def FaceRef.Bounded (r : FaceRef) : Prop :=
  (∀ k, r.v = some k → k ≤ uintMax) ∧ (∀ k, r.vt = some k → k ≤ uintMax) ∧
    (∀ k, r.vn = some k → k ≤ uintMax)

/-! ## the text of a model file -/

/-- The decimal digits of `n`, the most significant first, in front of `acc`. -/
def showDigits : Nat → Nat → List Char → List Char
  | 0, _, acc => acc
  | fuel + 1, n, acc =>
    if n < 10 then Char.ofNat (48 + n) :: acc
    else showDigits fuel (n / 10) (Char.ofNat (48 + n % 10) :: acc)

/-- The decimal spelling of a number. -/
def showNat (n : Nat) : List Char := showDigits (n + 1) n []

/-- The text `v/vt/vn` of a vertex reference. -/
def refText (r : Nat × Nat × Nat) : List Char :=
  showNat r.1 ++ '/' :: (showNat r.2.1 ++ '/' :: showNat r.2.2)

/-- A triangular face record: the three references `v/vt/vn` it names and the
characters that stand before the tag `f`, between the words and after the last
reference. -/
structure FaceLine where
  a : Nat × Nat × Nat
  b : Nat × Nat × Nat
  c : Nat × Nat × Nat
  lead : List Char
  gap1 : List Char
  gap2 : List Char
  gap3 : List Char
  trail : List Char

/-- The line of a face record: `f a b c`. -/
def FaceLine.text (f : FaceLine) : Line :=
  String.mk (f.lead ++ 'f' :: (f.gap1 ++ (refText f.a ++ (f.gap2 ++ (refText f.b ++
    (f.gap3 ++ (refText f.c ++ f.trail)))))))

/-- The characters around the words of a face record are white space, and there is
at least one between two words. -/
def FaceLine.WellSpaced (f : FaceLine) : Prop :=
  f.lead.all isSpace = true ∧
    (f.gap1 ≠ [] ∧ f.gap1.all isSpace = true) ∧
    (f.gap2 ≠ [] ∧ f.gap2.all isSpace = true) ∧
    (f.gap3 ≠ [] ∧ f.gap3.all isSpace = true) ∧
    f.trail.all isSpace = true

instance (f : FaceLine) : Decidable f.WellSpaced := by
  unfold FaceLine.WellSpaced; infer_instance

/-- A line of a model file: a triangular face record, or any other line. -/
inductive ObjRecord
  | face (f : FaceLine)
  | other (l : Line)

/-- The line of a record. -/
def ObjRecord.text : ObjRecord → Line
  | ObjRecord.face f => f.text
  | ObjRecord.other l => l

/-- The first word of a line: the characters from the first that is not white space
up to the next white space. -/
def firstWord (l : Line) : List Char :=
  (l.toList.dropWhile isSpace).takeWhile (fun c => !isSpace c)

/-- A face record is well spaced; another line does not have `f` as its first word. -/
def ObjRecord.WellFormed : ObjRecord → Prop
  | ObjRecord.face f => f.WellSpaced
  | ObjRecord.other l => firstWord l ≠ "f".toList

instance (r : ObjRecord) : Decidable r.WellFormed := by
  cases r <;> unfold ObjRecord.WellFormed <;> infer_instance

/-- The vertex references of the face records of a file, in file order. -/
def fileRefs : List ObjRecord → List (Nat × Nat × Nat)
  | [] => []
  | ObjRecord.face f :: rs => f.a :: f.b :: f.c :: fileRefs rs
  | ObjRecord.other _ :: rs => fileRefs rs

/-- The number of face records of a file. -/
def faceCount : List ObjRecord → Nat
  | [] => 0
  | ObjRecord.face _ :: rs => 1 + faceCount rs
  | ObjRecord.other _ :: rs => faceCount rs

/-- Every index of the references is at most `UINT_MAX`. -/
def refsFit (refs : List (Nat × Nat × Nat)) : Prop :=
  ∀ r ∈ refs, r.1 ≤ uintMax ∧ r.2.1 ≤ uintMax ∧ r.2.2 ≤ uintMax

instance (refs : List (Nat × Nat × Nat)) : Decidable (refsFit refs) := by
  unfold refsFit; infer_instance

/-- A model file with one triangle whose references name a different entry of every
array: 3 `v`, 3 `vt`, 3 `vn`, 1 `f`. -/
def mixedObj : List ObjRecord :=
  [ObjRecord.other "v 0 0 0", ObjRecord.other "v 1 0 0", ObjRecord.other "v 0 1 0",
    ObjRecord.other "vt 0 0", ObjRecord.other "vt 1 0", ObjRecord.other "vt 0 1",
    ObjRecord.other "vn 0 0 1", ObjRecord.other "vn 0 1 0", ObjRecord.other "vn 1 0 0",
    ObjRecord.face ⟨(1, 2, 3), (2, 3, 1), (3, 1, 2), [], [' '], [' '], [' '], []⟩]

/-! ## the calls that change an entity -/

/-- What `Entity::initialize` takes from outside the entity: the files behind the
paths, the names `glGenVertexArrays` and `glCreateProgram` hand out, and the texture
loader. -/
structure Platform where
  readFile : String → File
  newVAO : Nat
  loadTexture : String → Nat
  newProgram : Nat

/-- The member function `initialize` of the source: `loadMaterial`, then
`VAO = loadModelWithTexture(...)` with `nVertices` and `textureID` as outputs, then
`setupShaders`, which sets
`shaderProgram`.  A model file that cannot be opened leaves `-1` in the unsigned
`VAO`.  `none` when the vertex loop has undefined behaviour. -/
def Entity.init (pf : Platform) (e : Entity) : Option Entity :=
  match loadModelWithTexture pf.newVAO pf.loadTexture (pf.readFile e.objFilePath)
      e.textureFilePath with
  | LoadResult.openError =>
    some { e.loadMaterial (pf.readFile e.mtlFilePath) with
      VAO := uintMax, shaderProgram := pf.newProgram }
  | LoadResult.undefinedRead => none
  | LoadResult.loaded vao _ outVertices outTextureID =>
    some { e.loadMaterial (pf.readFile e.mtlFilePath) with
      VAO := vao, nVertices := outVertices, textureID := outTextureID,
      shaderProgram := pf.newProgram }

/-- The calls on an entity that change its state: the public member functions of
`Entity.h` other than `draw` and `setViewProjection`, which write no data member. -/
inductive Mutator
  | init (pf : Platform)
  | toggleRotateX
  | toggleRotateY
  | toggleRotateZ
  | scaleUp
  | scaleDown
  | moveForward
  | moveBackward
  | loadBezierControlPoints (file : File)
  | updateBezierTrajectory

/-- The state after one call; `none` when the call has undefined behaviour. -/
def Entity.apply (e : Entity) : Mutator → Option Entity
  | Mutator.init pf => e.init pf
  | Mutator.toggleRotateX => some e.toggleRotateX
  | Mutator.toggleRotateY => some e.toggleRotateY
  | Mutator.toggleRotateZ => some e.toggleRotateZ
  | Mutator.scaleUp => some e.scaleUp
  | Mutator.scaleDown => some e.scaleDown
  | Mutator.moveForward => some e.moveForward
  | Mutator.moveBackward => some e.moveBackward
  | Mutator.loadBezierControlPoints file => some (e.loadBezierControlPoints file)
  | Mutator.updateBezierTrajectory => some e.updateBezierTrajectory

/-- The state after a sequence of calls. -/
def Entity.run (e : Entity) : List Mutator → Option Entity
  | [] => some e
  | m :: ms =>
    match e.apply m with
    | none => none
    | some e1 => e1.run ms

/-- The scale factor lies in `[0.1, 1.0]`. -/
def Entity.scaleInRange (e : Entity) : Prop := 1 / 10 ≤ e.scaleFactor ∧ e.scaleFactor ≤ 1

/-- A platform whose files are the sample model, with no material file. -/
def samplePlatform : Platform :=
  { readFile := fun path => if path = "cube.obj" then some sampleObj else none
    newVAO := 1
    loadTexture := fun _ => 1
    newProgram := 3 }

/-- A session on the sample entity: initialisation, keys, a trajectory. -/
def sampleSession : List Mutator :=
  [Mutator.init samplePlatform, Mutator.scaleUp, Mutator.scaleUp, Mutator.scaleUp,
    Mutator.scaleUp, Mutator.scaleUp, Mutator.scaleUp, Mutator.scaleDown,
    Mutator.toggleRotateX, Mutator.moveForward,
    Mutator.loadBezierControlPoints (some sampleTrajectory), Mutator.updateBezierTrajectory]

/-- The four weights `cubicBezier` multiplies its control points by, as the source
computes them from `t`: `u * u * u`, `3 * u * u * t`, `3 * u * t * t`, `t * t * t` with
`u = 1.0f - t`. -/
def bezierWeights (t : ℚ) : ℚ × ℚ × ℚ × ℚ :=
  (fmul (fmul (fsub 1 t) (fsub 1 t)) (fsub 1 t),
    fmul (fmul (fmul 3 (fsub 1 t)) (fsub 1 t)) t,
    fmul (fmul (fmul 3 (fsub 1 t)) t) t,
    fmul (fmul t t) t)

/-- The weighted sum `cubicBezier` forms in one coordinate, from the four weights and
the four coordinates. -/
def blend (w : ℚ × ℚ × ℚ × ℚ) (a b c d : ℚ) : ℚ :=
  fadd (fadd (fadd (fmul w.1 a) (fmul w.2.1 b)) (fmul w.2.2.1 c)) (fmul w.2.2.2 d)

/-- The coordinates of a point are at most `b` in magnitude. -/
def Vec3.Within (v : Vec3) (b : ℚ) : Prop := |v.x| ≤ b ∧ |v.y| ≤ b ∧ |v.z| ≤ b

instance (v : Vec3) (b : ℚ) : Decidable (v.Within b) := by
  unfold Vec3.Within; infer_instance

/-- The values `cubicBezier` rounds while it forms the four weights from `t`: `u`,
`u*u`, `u*u*u`, `3*u`, `3*u*u`, `3*u*u*t`, `3*u*t`, `3*u*t*t`, `t*t`, `t*t*t`. -/
def weightSteps (t : ℚ) : List ℚ :=
  [fsub 1 t, fmul (fsub 1 t) (fsub 1 t), fmul (fmul (fsub 1 t) (fsub 1 t)) (fsub 1 t),
    fmul 3 (fsub 1 t), fmul (fmul 3 (fsub 1 t)) (fsub 1 t),
    fmul (fmul (fmul 3 (fsub 1 t)) (fsub 1 t)) t, fmul (fmul 3 (fsub 1 t)) t,
    fmul (fmul (fmul 3 (fsub 1 t)) t) t, fmul t t, fmul (fmul t t) t]

/-- The values rounded while one coordinate is blended: the four products and the
three sums. -/
def blendSteps (w : ℚ × ℚ × ℚ × ℚ) (a b c d : ℚ) : List ℚ :=
  [fmul w.1 a, fmul w.2.1 b, fmul w.2.2.1 c, fmul w.2.2.2 d,
    fadd (fmul w.1 a) (fmul w.2.1 b),
    fadd (fadd (fmul w.1 a) (fmul w.2.1 b)) (fmul w.2.2.1 c),
    fadd (fadd (fadd (fmul w.1 a) (fmul w.2.1 b)) (fmul w.2.2.1 c)) (fmul w.2.2.2 d)]

/-! ## the literals are the binary32 values of their decimal spelling -/

theorem lit0_1_eq : lit0_1 = roundF32 (1 / 10) := by decide!

theorem lit0_001_eq : lit0_001 = roundF32 (1 / 1000) := by decide!

theorem degToRad_eq :
    degToRad = roundF32 (1745329251994329576923690768489 / 10 ^ 32) := by decide!

theorem roundF32_zero : roundF32 0 = 0 := by decide!

theorem roundF32_one : roundF32 1 = 1 := by decide!

/-! ## C1: the progress parameter stays in `[0, 1)` -/

theorem checkOrbit_sound : ∀ (n : Nat) (t : ℚ), checkOrbit n t = true →
    (∀ k, k < n → tickOK ((advanceT lit0_001)^[k] t) = true) ∧
      (advanceT lit0_001)^[n] t = 0 := by
  intro n
  induction n with
  | zero =>
    intro t h
    refine ⟨fun k hk => absurd hk (Nat.not_lt_zero k), ?_⟩
    simpa [checkOrbit] using h
  | succ n ih =>
    intro t h
    simp only [checkOrbit, Bool.and_eq_true] at h
    obtain ⟨hk, hend⟩ := ih _ h.2
    refine ⟨?_, ?_⟩
    · intro k hlt
      cases k with
      | zero => simpa using h.1
      | succ k =>
        rw [Function.iterate_succ_apply]
        exact hk k (Nat.lt_of_succ_lt_succ hlt)
    · rw [Function.iterate_succ_apply]
      exact hend

/-- Starting at `0` with step `0.001f`, the binary32 sums come back to `0` after
1001 updates, and every value on the way passes `tickOK`. -/
theorem orbit_closed : checkOrbit 1001 0 = true := by decide!

theorem orbit_tickOK (k : Nat) : tickOK ((advanceT lit0_001)^[k] 0) = true := by
  obtain ⟨hlt, hper⟩ := checkOrbit_sound 1001 0 orbit_closed
  have hk : k = k % 1001 + 1001 * (k / 1001) := (Nat.mod_add_div k 1001).symm
  have hfix : (advanceT lit0_001)^[1001 * (k / 1001)] 0 = 0 := by
    rw [Function.iterate_mul]
    exact Function.iterate_fixed hper _
  rw [hk, Function.iterate_add_apply, hfix]
  exact hlt _ (Nat.mod_lt _ (by norm_num))

theorem tickOK_spec (t : ℚ) (h : tickOK t = true) :
    0 ≤ t ∧ t < 1 ∧
      (advanceT lit0_001 t < t → 0 ≤ advanceT lit0_001 t ∧ advanceT lit0_001 t < lit0_001) := by
  simp only [tickOK, Bool.and_eq_true, Bool.or_eq_true, Bool.not_eq_true', decide_eq_true_eq,
    decide_eq_false_iff_not] at h
  refine ⟨h.1.1, h.1.2, fun hlt => ?_⟩
  rcases h.2 with h2 | h2
  · exact absurd hlt h2
  · exact h2

theorem update_progress (e : Entity) :
    e.updateBezierTrajectory.bezierSpeed = e.bezierSpeed ∧
      (e.updateBezierTrajectory.bezierT = e.bezierT ∨
        e.updateBezierTrajectory.bezierT = advanceT e.bezierSpeed e.bezierT) := by
  unfold Entity.updateBezierTrajectory
  split
  · exact ⟨rfl, Or.inr rfl⟩
  · exact ⟨rfl, Or.inl rfl⟩

theorem update_iterate_on_orbit (e : Entity) (h0 : e.bezierT = 0)
    (hs : e.bezierSpeed = lit0_001) (n : Nat) :
    (Entity.updateBezierTrajectory^[n] e).bezierSpeed = lit0_001 ∧
      ∃ k, (Entity.updateBezierTrajectory^[n] e).bezierT = (advanceT lit0_001)^[k] 0 := by
  induction n with
  | zero => exact ⟨hs, 0, h0⟩
  | succ n ih =>
    obtain ⟨hsp, k, hk⟩ := ih
    rw [Function.iterate_succ_apply']
    obtain ⟨h1, h2⟩ := update_progress (Entity.updateBezierTrajectory^[n] e)
    refine ⟨h1.trans hsp, ?_⟩
    rcases h2 with h2 | h2
    · exact ⟨k, h2.trans hk⟩
    · refine ⟨k + 1, ?_⟩
      rw [h2, hsp, hk, Function.iterate_succ_apply']

/-- C1.  From a state with `bezierT = 0` and `bezierSpeed = 0.001f` (what a successful
`loadBezierControlPoints` on a constructed entity leaves), after any number `n` of
`updateBezierTrajectory` calls `bezierT` is in `[0, 1)`; and when the next call makes
it go down (the wrap), the new value is in `[0, bezierSpeed)`.  The sums are the
binary32 ones: the 1000th is just below `1`, the 1001st is above `1` and is reset. -/
theorem bezierT_stays_in_unit_interval (e : Entity) (h0 : e.bezierT = 0)
    (hs : e.bezierSpeed = lit0_001) (n : Nat) :
    0 ≤ (Entity.updateBezierTrajectory^[n] e).bezierT ∧
      (Entity.updateBezierTrajectory^[n] e).bezierT < 1 ∧
      ((Entity.updateBezierTrajectory^[n + 1] e).bezierT <
          (Entity.updateBezierTrajectory^[n] e).bezierT →
        0 ≤ (Entity.updateBezierTrajectory^[n + 1] e).bezierT ∧
          (Entity.updateBezierTrajectory^[n + 1] e).bezierT < e.bezierSpeed) := by
  obtain ⟨hsp, k, hk⟩ := update_iterate_on_orbit e h0 hs n
  obtain ⟨hlo, hhi, hwrap⟩ := tickOK_spec _ (orbit_tickOK k)
  rw [Function.iterate_succ_apply', hk, hs]
  refine ⟨hlo, hhi, fun hlt => ?_⟩
  obtain ⟨-, h2⟩ := update_progress (Entity.updateBezierTrajectory^[n] e)
  rcases h2 with h2 | h2
  · rw [h2, hk] at hlt
    exact absurd hlt (lt_irrefl _)
  · rw [h2, hsp, hk] at hlt ⊢
    exact hwrap hlt

/-! ## C5: the curve starts at `P0` and ends at `P3` -/

theorem fmul_zero_left (x : ℚ) : fmul 0 x = 0 := by
  unfold fmul
  rw [zero_mul]
  exact roundF32_zero

theorem fmul_one_left (x : ℚ) (h : IsF32 x) : fmul 1 x = x := by
  unfold fmul
  rw [one_mul]
  exact h

theorem fadd_zero_right (x : ℚ) (h : IsF32 x) : fadd x 0 = x := by
  unfold fadd
  rw [add_zero]
  exact h

theorem fadd_zero_left (x : ℚ) (h : IsF32 x) : fadd 0 x = x := by
  unfold fadd
  rw [zero_add]
  exact h

theorem bezier_weights_at_zero :
    fsub 1 0 = 1 ∧ fmul (fmul 1 1) 1 = 1 ∧ fmul (fmul (fmul 3 1) 1) 0 = 0 ∧
      fmul (fmul (fmul 3 1) 0) 0 = 0 ∧ fmul (fmul 0 0) 0 = 0 := by decide!

theorem bezier_weights_at_one :
    fsub 1 1 = 0 ∧ fmul (fmul 0 0) 0 = 0 ∧ fmul (fmul (fmul 3 0) 0) 1 = 0 ∧
      fmul (fmul (fmul 3 0) 1) 1 = 0 ∧ fmul (fmul 1 1) 1 = 1 := by decide!

theorem blend_first (a b c d : ℚ) (ha : IsF32 a) :
    fadd (fadd (fadd (fmul 1 a) (fmul 0 b)) (fmul 0 c)) (fmul 0 d) = a := by
  rw [fmul_zero_left, fmul_zero_left, fmul_zero_left, fmul_one_left a ha,
    fadd_zero_right a ha, fadd_zero_right a ha, fadd_zero_right a ha]

theorem blend_last (a b c d : ℚ) (hd : IsF32 d) :
    fadd (fadd (fadd (fmul 0 a) (fmul 0 b)) (fmul 0 c)) (fmul 1 d) = d := by
  have h0 : fadd 0 0 = 0 := fadd_zero_right 0 roundF32_zero
  rw [fmul_zero_left, fmul_zero_left, fmul_zero_left, fmul_one_left d hd, h0, h0,
    fadd_zero_left d hd]

theorem cubicBezier_zero (p0 p1 p2 p3 : Vec3) (h : p0.IsF32) :
    cubicBezier p0 p1 p2 p3 0 = p0 := by
  obtain ⟨hu, h0, h1, h2, h3⟩ := bezier_weights_at_zero
  obtain ⟨hx, hy, hz⟩ := h
  simp only [cubicBezier, hu, h0, h1, h2, h3, Vec3.add, Vec3.smul]
  rw [blend_first _ _ _ _ hx, blend_first _ _ _ _ hy, blend_first _ _ _ _ hz]

theorem cubicBezier_one (p0 p1 p2 p3 : Vec3) (h : p3.IsF32) :
    cubicBezier p0 p1 p2 p3 1 = p3 := by
  obtain ⟨hu, h0, h1, h2, h3⟩ := bezier_weights_at_one
  obtain ⟨hx, hy, hz⟩ := h
  simp only [cubicBezier, hu, h0, h1, h2, h3, Vec3.add, Vec3.smul]
  rw [blend_last _ _ _ _ hx, blend_last _ _ _ _ hy, blend_last _ _ _ _ hz]

/-- C5.  For control points `P0..P3` and rotations `R0..R3` that are binary32 values,
`cubicBezier(P0,P1,P2,P3,0) = P0` and `cubicBezier(P0,P1,P2,P3,1) = P3`; and
`updateBezierTrajectory`, called on an active trajectory over these points with
`bezierT = 0`, sets `position` to `P0` and `rotation` to `glm::radians(R0)`. -/
theorem bezier_endpoints (p0 p1 p2 p3 r0 r1 r2 r3 : Vec3) (hp0 : p0.IsF32) (hp3 : p3.IsF32)
    (hr0 : r0.IsF32) (e : Entity) (hf : e.followBezier = true)
    (hcp : e.bezierControlPoints = [p0, p1, p2, p3])
    (hrot : e.bezierRotations = [r0, r1, r2, r3]) (ht : e.bezierT = 0) :
    cubicBezier p0 p1 p2 p3 0 = p0 ∧ cubicBezier p0 p1 p2 p3 1 = p3 ∧
      e.updateBezierTrajectory.position = p0 ∧
      e.updateBezierTrajectory.rotation = radians r0 := by
  refine ⟨cubicBezier_zero _ _ _ _ hp0, cubicBezier_one _ _ _ _ hp3, ?_, ?_⟩
  · simp only [Entity.updateBezierTrajectory, hf, hcp, hrot, ht]
    exact cubicBezier_zero _ _ _ _ hp0
  · simp only [Entity.updateBezierTrajectory, hf, hcp, hrot, ht]
    rw [cubicBezier_zero _ _ _ _ hr0]

/-- C5 at the sample trajectory, loaded from its file. -/
theorem bezier_endpoints_witness :
    cubicBezier ⟨0, 0, 0⟩ ⟨1, 2, 0⟩ ⟨2, 2, 0⟩ ⟨3, 0, 1 / 2⟩ 0 = ⟨0, 0, 0⟩ ∧
      cubicBezier ⟨0, 0, 0⟩ ⟨1, 2, 0⟩ ⟨2, 2, 0⟩ ⟨3, 0, 1 / 2⟩ 1 = ⟨3, 0, 1 / 2⟩ ∧
      ((sampleEntity.loadBezierControlPoints (some sampleTrajectory)).updateBezierTrajectory).position
        = ⟨0, 0, 0⟩ ∧
      ((sampleEntity.loadBezierControlPoints (some sampleTrajectory)).updateBezierTrajectory).rotation
        = radians ⟨0, 0, 0⟩ :=
  bezier_endpoints ⟨0, 0, 0⟩ ⟨1, 2, 0⟩ ⟨2, 2, 0⟩ ⟨3, 0, 1 / 2⟩ ⟨0, 0, 0⟩ ⟨0, 90, 0⟩ ⟨0, 180, 0⟩
    ⟨0, 270, 45⟩ (by decide!) (by decide!) (by decide!)
    (sampleEntity.loadBezierControlPoints (some sampleTrajectory)) (by decide!) (by decide!)
    (by decide!) (by decide!)

/-! ## C6: the rotation flags exclude one another -/

theorem toggle_atMostOne (e : Entity) (k : RotKey) : (e.toggle k).atMostOneRotation := by
  cases k <;>
    simp [Entity.toggle, Entity.toggleRotateX, Entity.toggleRotateY, Entity.toggleRotateZ,
      Entity.atMostOneRotation]

theorem afterKeys_atMostOne (keys : List RotKey) :
    ∀ e : Entity, e.atMostOneRotation → (e.afterKeys keys).atMostOneRotation := by
  induction keys with
  | nil => exact fun e h => h
  | cons k ks ih => exact fun e _ => ih (e.toggle k) (toggle_atMostOne e k)

/-- C6.  In every state reached from a constructed entity by a sequence of
`toggleRotateX/Y/Z` calls at most one of `rotateX`, `rotateY`, `rotateZ` is true;
and when `rotateX` is true there, `toggleRotateY` yields `rotateX = false`,
`rotateY = true`, `rotateZ = false`. -/
theorem rotation_flags_exclusive (x y z : ℚ) (baseColor : Vec3) (initialScale : ℚ)
    (objFilePath mtlFilePath textureFilePath : String) (initialRotation rotation0 : Vec3)
    (keys : List RotKey) :
    ((Entity.new x y z baseColor initialScale objFilePath mtlFilePath textureFilePath
        initialRotation rotation0).afterKeys keys).atMostOneRotation ∧
      (((Entity.new x y z baseColor initialScale objFilePath mtlFilePath textureFilePath
        initialRotation rotation0).afterKeys keys).rotateX = true →
        (((Entity.new x y z baseColor initialScale objFilePath mtlFilePath textureFilePath
          initialRotation rotation0).afterKeys keys).toggleRotateY.rotateX = false ∧
         ((Entity.new x y z baseColor initialScale objFilePath mtlFilePath textureFilePath
          initialRotation rotation0).afterKeys keys).toggleRotateY.rotateY = true ∧
         ((Entity.new x y z baseColor initialScale objFilePath mtlFilePath textureFilePath
          initialRotation rotation0).afterKeys keys).toggleRotateY.rotateZ = false)) := by
  have hinit : (Entity.new x y z baseColor initialScale objFilePath mtlFilePath
      textureFilePath initialRotation rotation0).atMostOneRotation := by
    simp [Entity.new, Entity.atMostOneRotation]
  have h := afterKeys_atMostOne keys _ hinit
  refine ⟨h, fun hx => ⟨rfl, ?_, rfl⟩⟩
  have hy : ((Entity.new x y z baseColor initialScale objFilePath mtlFilePath textureFilePath
      initialRotation rotation0).afterKeys keys).rotateY = false := by
    cases hY : ((Entity.new x y z baseColor initialScale objFilePath mtlFilePath
      textureFilePath initialRotation rotation0).afterKeys keys).rotateY
    · rfl
    · exact absurd ⟨hx, hY⟩ h.1
  simp [Entity.toggleRotateY, hy]

/-- C6 after the keys X, Z, X: `rotateX` is set, and `toggleRotateY` moves the flag. -/
theorem rotation_flags_exclusive_witness :
    (sampleEntity.afterKeys [RotKey.X, RotKey.Z, RotKey.X]).rotateX = true ∧
      (sampleEntity.afterKeys [RotKey.X, RotKey.Z, RotKey.X]).toggleRotateY.rotateX = false ∧
      (sampleEntity.afterKeys [RotKey.X, RotKey.Z, RotKey.X]).toggleRotateY.rotateY = true ∧
      (sampleEntity.afterKeys [RotKey.X, RotKey.Z, RotKey.X]).toggleRotateY.rotateZ = false :=
  ⟨rfl, (rotation_flags_exclusive 1 2 3 ⟨0, 0, 0⟩ (1 / 2) "cube.obj" "cube.mtl" "cube.png"
    ⟨0, 0, 0⟩ ⟨7, 7, 7⟩ [RotKey.X, RotKey.Z, RotKey.X]).2 rfl⟩

/-! ## C7: the scale clamp -/

theorem stdMin_le_right (a b : ℚ) : stdMin a b ≤ b := by
  unfold stdMin
  split
  · exact le_refl b
  · rename_i h
    exact not_lt.mp h

theorem le_stdMax_right (a b : ℚ) : b ≤ stdMax a b := by
  unfold stdMax
  split
  · exact le_refl b
  · rename_i h
    exact not_lt.mp h

theorem scale_bound_literals :
    stdMin (fadd 1 lit0_1) 1 = 1 ∧ stdMax (fsub lit0_1 lit0_1) lit0_1 = lit0_1 ∧
      (1 : ℚ) / 10 ≤ lit0_1 := by decide!

/-- C7.  For every entity state, whatever its scale factor: `scaleUp` leaves a scale of
at most `1.0`, `scaleDown` one of at least `0.1f` (which is at least 1/10), so after
one or more `scaleUp` (`scaleDown`) calls the scale is at most `1.0` (at least `0.1`);
`scaleUp` at scale `1.0` and `scaleDown` at scale `0.1f` change nothing. -/
theorem scale_clamp (e : Entity) :
    e.scaleUp.scaleFactor ≤ 1 ∧ lit0_1 ≤ e.scaleDown.scaleFactor ∧
      (1 : ℚ) / 10 ≤ e.scaleDown.scaleFactor ∧
      (∀ n : Nat, (Entity.scaleUp^[n + 1] e).scaleFactor ≤ 1) ∧
      (∀ n : Nat, (1 : ℚ) / 10 ≤ (Entity.scaleDown^[n + 1] e).scaleFactor) ∧
      (e.scaleFactor = 1 → e.scaleUp = e) ∧ (e.scaleFactor = lit0_1 → e.scaleDown = e) := by
  obtain ⟨hup, hdown, hlit⟩ := scale_bound_literals
  have hU : ∀ a : Entity, a.scaleUp.scaleFactor ≤ 1 := fun a => stdMin_le_right _ _
  have hD : ∀ a : Entity, lit0_1 ≤ a.scaleDown.scaleFactor := fun a => le_stdMax_right _ _
  refine ⟨hU e, hD e, le_trans hlit (hD e), ?_, ?_, ?_, ?_⟩
  · intro n
    rw [Function.iterate_succ_apply']
    exact hU _
  · intro n
    rw [Function.iterate_succ_apply']
    exact le_trans hlit (hD _)
  · intro h
    cases e
    simp only at h
    subst h
    simp only [Entity.scaleUp, hup]
  · intro h
    cases e
    simp only at h
    subst h
    simp only [Entity.scaleDown, hdown]

/-- C7 at the bounds: an entity of scale `1.0` is a fixed point of `scaleUp`, one of
scale `0.1f` a fixed point of `scaleDown`. -/
theorem scale_clamp_witness :
    ({ sampleEntity with scaleFactor := 1 } : Entity).scaleUp.scaleFactor = 1 ∧
      ({ sampleEntity with scaleFactor := lit0_1 } : Entity).scaleDown.scaleFactor = lit0_1 :=
  ⟨congrArg Entity.scaleFactor
      ((scale_clamp { sampleEntity with scaleFactor := 1 }).2.2.2.2.2.1 rfl),
    congrArg Entity.scaleFactor
      ((scale_clamp { sampleEntity with scaleFactor := lit0_1 }).2.2.2.2.2.2 rfl)⟩

/-! ## C9: the pitch clamp -/

theorem updateCameraVectors_angles (m : GlmMath) (c : Camera) :
    (Camera.updateCameraVectors m c).pitch = c.pitch ∧
      (Camera.updateCameraVectors m c).yaw = c.yaw := ⟨rfl, rfl⟩

/-- C9.  For every camera state and pair of mouse offsets, after
`processMouseMovement` the pitch is in `[-89, 89]`; it is exactly `89` when
`pitch + yoffset * sensitivity` is above `89` and exactly `-89` when that value is
below `-89`; and the yaw is `yaw + xoffset * sensitivity`, not clamped. -/
theorem pitch_clamp (m : GlmMath) (c : Camera) (xoffset yoffset : ℚ) :
    -89 ≤ (c.processMouseMovement m xoffset yoffset).pitch ∧
      (c.processMouseMovement m xoffset yoffset).pitch ≤ 89 ∧
      (89 < fadd c.pitch (fmul yoffset c.sensitivity) →
        (c.processMouseMovement m xoffset yoffset).pitch = 89) ∧
      (fadd c.pitch (fmul yoffset c.sensitivity) < -89 →
        (c.processMouseMovement m xoffset yoffset).pitch = -89) ∧
      (c.processMouseMovement m xoffset yoffset).yaw
        = fadd c.yaw (fmul xoffset c.sensitivity) := by
  have hp : (c.processMouseMovement m xoffset yoffset).pitch =
      (if (if fadd c.pitch (fmul yoffset c.sensitivity) > 89 then 89
            else fadd c.pitch (fmul yoffset c.sensitivity)) < -89 then -89
        else (if fadd c.pitch (fmul yoffset c.sensitivity) > 89 then 89
            else fadd c.pitch (fmul yoffset c.sensitivity))) := rfl
  refine ⟨?_, ?_, ?_, ?_, rfl⟩
  · rw [hp]
    split_ifs <;> linarith
  · rw [hp]
    split_ifs <;> linarith
  · intro h
    rw [hp]
    split_ifs <;> linarith
  · intro h
    rw [hp]
    split_ifs <;> linarith

/-- C9 at the default camera: an upward offset of 1000 pins the pitch at `89`, a
downward one of 1000 at `-89`. -/
theorem pitch_clamp_witness :
    (sampleCamera.processMouseMovement sampleMath 0 1000).pitch = 89 ∧
      (sampleCamera.processMouseMovement sampleMath 0 (-1000)).pitch = -89 :=
  ⟨(pitch_clamp sampleMath sampleCamera 0 1000).2.2.1 (by decide!),
    (pitch_clamp sampleMath sampleCamera 0 (-1000)).2.2.2.1 (by decide!)⟩

/-- C1 on the sample entity with its trajectory loaded from the four-record file, at
2500 updates (past two wraps). -/
theorem bezierT_stays_in_unit_interval_witness :
    0 ≤ (Entity.updateBezierTrajectory^[2500] loadedEntity).bezierT ∧
      (Entity.updateBezierTrajectory^[2500] loadedEntity).bezierT < 1 ∧
      ((Entity.updateBezierTrajectory^[2500 + 1] loadedEntity).bezierT <
          (Entity.updateBezierTrajectory^[2500] loadedEntity).bezierT →
        0 ≤ (Entity.updateBezierTrajectory^[2500 + 1] loadedEntity).bezierT ∧
          (Entity.updateBezierTrajectory^[2500 + 1] loadedEntity).bezierT <
            loadedEntity.bezierSpeed) :=
  bezierT_stays_in_unit_interval loadedEntity (by decide!) (by decide!) 2500

/-! ## C3: when the trajectory loader enables the trajectory -/

/-- C3 fails on an entity whose trajectory is already active: a file with three
records leaves `followBezier` true. -/
theorem loadBezier_keeps_flag_counterexample :
    (trajectoryRecords shortTrajectory).length = 3 ∧
      loadedEntity.followBezier = true ∧
      (loadedEntity.loadBezierControlPoints (some shortTrajectory)).followBezier = true := by
  decide!

/-- C3, amended.  For every entity state and readable trajectory file, after
`loadBezierControlPoints` the flag `followBezier` is true exactly when the file
yielded 4 well-formed records or the flag was true before, and the stored control
points and rotations are the records read, whatever their number.  With 4 records
the entity is on the first record with `bezierT = 0`.  With another count nothing but
the two arrays changes: `followBezier`, `position`, `rotation` and the rotation
`draw` applies keep their previous values, and `updateBezierTrajectory` does nothing
in the resulting state. -/
theorem loadBezier_flag (e : Entity) (lines : List Line) :
    ((e.loadBezierControlPoints (some lines)).followBezier = true ↔
        ((trajectoryRecords lines).length = 4 ∨ e.followBezier = true)) ∧
      ((trajectoryRecords lines).length = 4 →
        (e.loadBezierControlPoints (some lines)).bezierT = 0 ∧
          (e.loadBezierControlPoints (some lines)).bezierControlPoints
            = (trajectoryRecords lines).map Prod.fst ∧
          (e.loadBezierControlPoints (some lines)).bezierRotations
            = (trajectoryRecords lines).map Prod.snd ∧
          (trajectoryRecords lines).head? = some
            ((e.loadBezierControlPoints (some lines)).position,
              (e.loadBezierControlPoints (some lines)).rotation)) ∧
      ((trajectoryRecords lines).length ≠ 4 →
        (e.loadBezierControlPoints (some lines)).followBezier = e.followBezier ∧
          (e.loadBezierControlPoints (some lines)).position = e.position ∧
          (e.loadBezierControlPoints (some lines)).rotation = e.rotation ∧
          (e.loadBezierControlPoints (some lines)).updateBezierTrajectory
            = e.loadBezierControlPoints (some lines)) ∧
      (e.loadBezierControlPoints (some lines)).bezierControlPoints
        = (trajectoryRecords lines).map Prod.fst ∧
      (e.loadBezierControlPoints (some lines)).bezierRotations
        = (trajectoryRecords lines).map Prod.snd ∧
      ((trajectoryRecords lines).length ≠ 4 →
        e.loadBezierControlPoints (some lines)
            = { e with
                bezierControlPoints := (trajectoryRecords lines).map Prod.fst
                bezierRotations := (trajectoryRecords lines).map Prod.snd } ∧
          (e.loadBezierControlPoints (some lines)).drawRotation = e.drawRotation) := by
  simp only [Entity.loadBezierControlPoints]
  generalize trajectoryRecords lines = recs
  rcases recs with _ | ⟨a, _ | ⟨b, _ | ⟨c, _ | ⟨d, _ | ⟨f, rest⟩⟩⟩⟩⟩ <;>
    simp [Entity.activateBezier, Entity.updateBezierTrajectory, Entity.drawRotation]

/-- C3, amended, on the entity whose trajectory is active and the three-record file:
the flag stays true, the pose and the rotation `draw` applies stay, the arrays now
hold the three records, and `updateBezierTrajectory` does nothing. -/
theorem loadBezier_flag_witness :
    ((loadedEntity.loadBezierControlPoints (some shortTrajectory)).followBezier
        = loadedEntity.followBezier ∧
      (loadedEntity.loadBezierControlPoints (some shortTrajectory)).position
        = loadedEntity.position ∧
      (loadedEntity.loadBezierControlPoints (some shortTrajectory)).rotation
        = loadedEntity.rotation ∧
      (loadedEntity.loadBezierControlPoints (some shortTrajectory)).updateBezierTrajectory
        = loadedEntity.loadBezierControlPoints (some shortTrajectory)) ∧
      (loadedEntity.loadBezierControlPoints (some shortTrajectory)).bezierControlPoints
        = [⟨0, 0, 0⟩, ⟨1, 2, 0⟩, ⟨2, 2, 0⟩] ∧
      (loadedEntity.loadBezierControlPoints (some shortTrajectory)).bezierRotations
        = [⟨0, 0, 0⟩, ⟨0, 90, 0⟩, ⟨0, 180, 0⟩] ∧
      (loadedEntity.loadBezierControlPoints (some shortTrajectory)).drawRotation
        = loadedEntity.rotation :=
  ⟨(loadBezier_flag loadedEntity shortTrajectory).2.2.1 (by decide!),
    (loadBezier_flag loadedEntity shortTrajectory).2.2.2.1.trans (by decide!),
    (loadBezier_flag loadedEntity shortTrajectory).2.2.2.2.1.trans (by decide!),
    (((loadBezier_flag loadedEntity shortTrajectory).2.2.2.2.2 (by decide!)).2).trans
      (by decide!)⟩

/-! ## C8: the material defaults -/

theorem materialLine_keeps (e : Entity) (l : Line) :
    ((readTag l).1 ≠ "Ka".toList → (materialLine e l).ka = e.ka) ∧
      ((readTag l).1 ≠ "Kd".toList → (materialLine e l).kd = e.kd) ∧
      ((readTag l).1 ≠ "Ks".toList → (materialLine e l).ks = e.ks) ∧
      ((readTag l).1 ≠ "Ns".toList → (materialLine e l).shininess = e.shininess) := by
  simp only [materialLine]
  refine ⟨fun h => ?_, fun h => ?_, fun h => ?_, fun h => ?_⟩ <;>
    split_ifs <;> first | rfl | contradiction

theorem foldl_materialLine_keeps (lines : List Line) : ∀ e : Entity,
    ((∀ l ∈ lines, (readTag l).1 ≠ "Ka".toList) → (lines.foldl materialLine e).ka = e.ka) ∧
      ((∀ l ∈ lines, (readTag l).1 ≠ "Kd".toList) → (lines.foldl materialLine e).kd = e.kd) ∧
      ((∀ l ∈ lines, (readTag l).1 ≠ "Ks".toList) → (lines.foldl materialLine e).ks = e.ks) ∧
      ((∀ l ∈ lines, (readTag l).1 ≠ "Ns".toList) →
        (lines.foldl materialLine e).shininess = e.shininess) := by
  induction lines with
  | nil => exact fun e => ⟨fun _ => rfl, fun _ => rfl, fun _ => rfl, fun _ => rfl⟩
  | cons l ls ih =>
    intro e
    obtain ⟨i1, i2, i3, i4⟩ := ih (materialLine e l)
    obtain ⟨k1, k2, k3, k4⟩ := materialLine_keeps e l
    simp only [List.foldl_cons, List.mem_cons, forall_eq_or_imp]
    exact ⟨fun h => (i1 h.2).trans (k1 h.1), fun h => (i2 h.2).trans (k2 h.1),
      fun h => (i3 h.2).trans (k3 h.1), fun h => (i4 h.2).trans (k4 h.1)⟩

/-- C8.  When the material file cannot be opened, `loadMaterial` returns with the
entity unchanged, so a constructed entity keeps `ka, kd, ks, shininess` at
`0.1f, 0.5f, 0.5f, 10.0f`; and for a readable file, a coefficient whose tag (`Ka`,
`Kd`, `Ks`, `Ns`) starts no line keeps that default. -/
theorem loadMaterial_defaults (x y z : ℚ) (baseColor : Vec3) (initialScale : ℚ)
    (objFilePath mtlFilePath textureFilePath : String) (initialRotation rotation0 : Vec3)
    (lines : List Line) :
    (Entity.new x y z baseColor initialScale objFilePath mtlFilePath textureFilePath
        initialRotation rotation0).loadMaterial none
      = Entity.new x y z baseColor initialScale objFilePath mtlFilePath textureFilePath
        initialRotation rotation0 ∧
    ((Entity.new x y z baseColor initialScale objFilePath mtlFilePath textureFilePath
        initialRotation rotation0).loadMaterial none).ka = some lit0_1 ∧
    ((Entity.new x y z baseColor initialScale objFilePath mtlFilePath textureFilePath
        initialRotation rotation0).loadMaterial none).kd = some (1 / 2) ∧
    ((Entity.new x y z baseColor initialScale objFilePath mtlFilePath textureFilePath
        initialRotation rotation0).loadMaterial none).ks = some (1 / 2) ∧
    ((Entity.new x y z baseColor initialScale objFilePath mtlFilePath textureFilePath
        initialRotation rotation0).loadMaterial none).shininess = some 10 ∧
    ((∀ l ∈ lines, (readTag l).1 ≠ "Ka".toList) →
      ((Entity.new x y z baseColor initialScale objFilePath mtlFilePath textureFilePath
        initialRotation rotation0).loadMaterial (some lines)).ka = some lit0_1) ∧
    ((∀ l ∈ lines, (readTag l).1 ≠ "Kd".toList) →
      ((Entity.new x y z baseColor initialScale objFilePath mtlFilePath textureFilePath
        initialRotation rotation0).loadMaterial (some lines)).kd = some (1 / 2)) ∧
    ((∀ l ∈ lines, (readTag l).1 ≠ "Ks".toList) →
      ((Entity.new x y z baseColor initialScale objFilePath mtlFilePath textureFilePath
        initialRotation rotation0).loadMaterial (some lines)).ks = some (1 / 2)) ∧
    ((∀ l ∈ lines, (readTag l).1 ≠ "Ns".toList) →
      ((Entity.new x y z baseColor initialScale objFilePath mtlFilePath textureFilePath
        initialRotation rotation0).loadMaterial (some lines)).shininess = some 10) := by
  obtain ⟨k1, k2, k3, k4⟩ := foldl_materialLine_keeps lines
    (Entity.new x y z baseColor initialScale objFilePath mtlFilePath textureFilePath
      initialRotation rotation0)
  exact ⟨rfl, rfl, rfl, rfl, rfl, k1, k2, k3, k4⟩

/-- C8 on a material file that gives `Kd` and `Ns` only: `ka` and `ks` keep their
defaults. -/
theorem loadMaterial_defaults_witness :
    (sampleEntity.loadMaterial (some ["# material", "Kd 0.8 0.8 0.8", "Ns 32"])).ka
        = some lit0_1 ∧
      (sampleEntity.loadMaterial (some ["# material", "Kd 0.8 0.8 0.8", "Ns 32"])).ks
        = some (1 / 2) :=
  ⟨(loadMaterial_defaults 1 2 3 ⟨0, 0, 0⟩ (1 / 2) "cube.obj" "cube.mtl" "cube.png" ⟨0, 0, 0⟩
      ⟨7, 7, 7⟩ ["# material", "Kd 0.8 0.8 0.8", "Ns 32"]).2.2.2.2.2.1 (by decide!),
    (loadMaterial_defaults 1 2 3 ⟨0, 0, 0⟩ (1 / 2) "cube.obj" "cube.mtl" "cube.png" ⟨0, 0, 0⟩
      ⟨7, 7, 7⟩ ["# material", "Kd 0.8 0.8 0.8", "Ns 32"]).2.2.2.2.2.2.2.1 (by decide!)⟩

/-! ## the index streams and the vertex loop -/

theorem tag_ne :
    "v".toList ≠ "f".toList ∧ "vt".toList ≠ "f".toList ∧ "vn".toList ≠ "f".toList := by decide

theorem modelLine_indices (d : ModelData) (l : Line) :
    (modelLine d l).vertexIndices
        = d.vertexIndices ++ (lineFaceRefs l).map (fun r => r.v.map pred32) ∧
      (modelLine d l).uvIndices
        = d.uvIndices ++ (lineFaceRefs l).map (fun r => r.vt.map pred32) ∧
      (modelLine d l).normalIndices
        = d.normalIndices ++ (lineFaceRefs l).map (fun r => r.vn.map pred32) := by
  obtain ⟨n1, n2, n3⟩ := tag_ne
  simp only [modelLine, lineFaceRefs]
  by_cases hf : (readTag l).1 = "f".toList
  · rw [hf]
    simp [n1.symm, n2.symm, n3.symm]
  · simp only [hf, if_false, List.map_nil, List.append_nil]
    split_ifs <;> (try split) <;> exact ⟨rfl, rfl, rfl⟩

theorem foldl_modelLine_indices (lines : List Line) : ∀ d : ModelData,
    (lines.foldl modelLine d).vertexIndices
        = d.vertexIndices ++ (faceRefs lines).map (fun r => r.v.map pred32) ∧
      (lines.foldl modelLine d).uvIndices
        = d.uvIndices ++ (faceRefs lines).map (fun r => r.vt.map pred32) ∧
      (lines.foldl modelLine d).normalIndices
        = d.normalIndices ++ (faceRefs lines).map (fun r => r.vn.map pred32) := by
  induction lines with
  | nil => intro d; simp [faceRefs]
  | cons l ls ih =>
    intro d
    obtain ⟨i1, i2, i3⟩ := ih (modelLine d l)
    obtain ⟨m1, m2, m3⟩ := modelLine_indices d l
    simp only [List.foldl_cons, faceRefs, List.map_append]
    rw [i1, i2, i3, m1, m2, m3]
    simp only [List.append_assoc, and_self]

theorem parseModel_indices (lines : List Line) :
    (parseModel lines).vertexIndices = (faceRefs lines).map (fun r => r.v.map pred32) ∧
      (parseModel lines).uvIndices = (faceRefs lines).map (fun r => r.vt.map pred32) ∧
      (parseModel lines).normalIndices = (faceRefs lines).map (fun r => r.vn.map pred32) := by
  obtain ⟨i1, i2, i3⟩ := foldl_modelLine_indices lines ModelData.empty
  exact ⟨by simpa [ModelData.empty] using i1, by simpa [ModelData.empty] using i2,
    by simpa [ModelData.empty] using i3⟩

theorem faceRefs_length (lines : List Line) : (faceRefs lines).length = 3 * faceLineCount lines := by
  induction lines with
  | nil => rfl
  | cons l ls ih =>
    simp only [faceRefs, faceLineCount, List.length_append, ih, lineFaceRefs]
    split_ifs
    · simp [readFaceRefs]; ring
    · simp


theorem readUInt_le (s : IStream) (v : Nat) (h : s.readUInt.1 = some v) : v ≤ uintMax := by
  unfold IStream.readUInt at h
  split at h
  · exact absurd h (by simp)
  · simp only at h
    split_ifs at h with h1 h2 h3
    · simp only [Option.some.injEq] at h
      omega
    · simp only [Option.some.injEq] at h
      omega
    · simp only [Option.some.injEq] at h
      rw [← h]
      exact Nat.lt_succ_iff.mp (Nat.mod_lt _ (Nat.succ_pos uintMax))
    · simp only [Option.some.injEq] at h
      omega

theorem readFaceRef_bounded (ss : IStream) : (readFaceRef ss).1.Bounded :=
  ⟨fun k h => readUInt_le _ k h, fun k h => readUInt_le _ k h, fun k h => readUInt_le _ k h⟩

theorem faceRefs_bounded (lines : List Line) : ∀ r ∈ faceRefs lines, r.Bounded := by
  induction lines with
  | nil => intro r hr; simp [faceRefs] at hr
  | cons l ls ih =>
    intro r hr
    simp only [faceRefs, List.mem_append] at hr
    rcases hr with hr | hr
    · simp only [lineFaceRefs] at hr
      split_ifs at hr
      · simp only [readFaceRefs, List.mem_cons, List.mem_singleton, List.not_mem_nil,
          or_false] at hr
        rcases hr with rfl | rfl | rfl <;> exact readFaceRef_bounded _
      · simp at hr
    · exact ih r hr

theorem pred32_of_pos (k : Nat) (h1 : 1 ≤ k) (h3 : k ≤ uintMax) : pred32 k = k - 1 := by
  unfold pred32
  unfold uintMax at *
  omega

theorem subscript_pred32 {α : Type} (vec : List α) (k : Nat) (dflt : α) (h1 : 1 ≤ k)
    (h2 : k ≤ vec.length) (h3 : k ≤ uintMax) :
    subscript vec ((some k).map pred32) = some (vec.getD (k - 1) dflt) := by
  have hlt : k - 1 < vec.length := by omega
  simp only [Option.map_some', subscript, pred32_of_pos k h1 h3]
  rw [List.getD_eq_getElem?_getD, List.getElem?_eq_getElem hlt]
  rfl

theorem subscript_bad {α : Type} (vec : List α) (i : Option Nat) (hsize : vec.length ≤ uintMax)
    (hb : ∀ k, i = some k → k ≤ uintMax) (hbad : badIndex vec.length i) :
    subscript vec (i.map pred32) = none := by
  obtain ⟨k, rfl, hk⟩ := hbad
  have hk3 := hb k rfl
  simp only [Option.map_some', subscript]
  apply List.getElem?_eq_none
  unfold pred32
  unfold uintMax at *
  omega

theorem buildVertexData_inRange (d : ModelData) (refs : List (Nat × Nat × Nat))
    (hb : ∀ r ∈ refs, (FaceRef.ofTriple r).Bounded) (hrange : refsInRange d refs) :
    buildVertexData d ((refs.map FaceRef.ofTriple).map (fun r => r.v.map pred32))
        ((refs.map FaceRef.ofTriple).map (fun r => r.vt.map pred32))
        ((refs.map FaceRef.ofTriple).map (fun r => r.vn.map pred32))
      = some (expandRefs d refs) := by
  induction refs with
  | nil => rfl
  | cons r rs ih =>
    have hr := hrange r (List.mem_cons_self r rs)
    have hbr := hb r (List.mem_cons_self r rs)
    have ih' := ih (fun q hq => hb q (List.mem_cons_of_mem r hq))
      (fun q hq => hrange q (List.mem_cons_of_mem r hq))
    simp only [List.map_cons, buildVertexData, FaceRef.ofTriple] at ih' ⊢
    rw [subscript_pred32 d.temp_positions r.1 ⟨none, none, none⟩ hr.1.1 hr.1.2 (hbr.1 _ rfl),
      subscript_pred32 d.temp_uvs r.2.1 ⟨none, none⟩ hr.2.1.1 hr.2.1.2 (hbr.2.1 _ rfl),
      subscript_pred32 d.temp_normals r.2.2 ⟨none, none, none⟩ hr.2.2.1 hr.2.2.2
        (hbr.2.2 _ rfl), ih']
    rfl

theorem buildVertexData_bad (d : ModelData) (refs : List FaceRef) (r : FaceRef) (hr : r ∈ refs)
    (hnone : subscript d.temp_positions (r.v.map pred32) = none ∨
      subscript d.temp_uvs (r.vt.map pred32) = none ∨
      subscript d.temp_normals (r.vn.map pred32) = none) :
    buildVertexData d (refs.map (fun r => r.v.map pred32)) (refs.map (fun r => r.vt.map pred32))
      (refs.map (fun r => r.vn.map pred32)) = none := by
  induction refs with
  | nil => simp at hr
  | cons q qs ih =>
    simp only [List.map_cons, buildVertexData]
    split
    · rename_i pos uv norm more h1 h2 h3 h4
      rcases List.mem_cons.mp hr with rfl | hmem
      · rcases hnone with h | h | h
        · rw [h] at h1; exact absurd h1 (by simp)
        · rw [h] at h2; exact absurd h2 (by simp)
        · rw [h] at h3; exact absurd h3 (by simp)
      · rw [ih hmem] at h4
        exact absurd h4 (by simp)
    · rfl

theorem expandRefs_length (d : ModelData) (refs : List (Nat × Nat × Nat)) :
    (expandRefs d refs).length = 8 * refs.length := by
  induction refs with
  | nil => rfl
  | cons r rs ih => simp [expandRefs, vertexFloats, ih]; ring

theorem vertexFloats_length (d : ModelData) (r : Nat × Nat × Nat) :
    (vertexFloats d r).length = 8 := rfl

theorem expandRefs_slice (d : ModelData) (refs : List (Nat × Nat × Nat)) :
    ∀ (k : Nat) (r : Nat × Nat × Nat), refs[k]? = some r →
      ((expandRefs d refs).drop (8 * k)).take 8 = vertexFloats d r := by
  induction refs with
  | nil => intro k r h; simp at h
  | cons q qs ih =>
    intro k r h
    cases k with
    | zero =>
      simp only [List.getElem?_cons_zero, Option.some.injEq] at h
      subst h
      simp only [expandRefs, Nat.mul_zero, List.drop_zero]
      exact List.take_left' (vertexFloats_length d q)
    | succ k =>
      simp only [List.getElem?_cons_succ] at h
      have h8 : 8 * (k + 1) = (vertexFloats d q).length + 8 * k := by
        rw [vertexFloats_length]; ring
      simp only [expandRefs]
      rw [h8, List.drop_append]
      exact ih k r h

/-! ## C2: face indices are not validated -/

/-- C2 on a face that names vertex 99 of 3, and on one that names vertex 0: the
reference is read and stored (`v - 1` is 98, and `UINT_MAX` for 0), the arrays hold
three entries each, no error result is returned, and the vertex loop evaluates
`temp_positions[vertexIndices[i]]` outside the array. -/
theorem out_of_range_face_index_is_read :
    (⟨some 99, some 1, some 1⟩ : FaceRef) ∈ faceRefs farIndexObj ∧
      (parseModel farIndexObj).temp_positions.length = 3 ∧
      (parseModel farIndexObj).temp_uvs.length = 3 ∧
      (parseModel farIndexObj).temp_normals.length = 3 ∧
      (parseModel farIndexObj).vertexIndices = [some 98, some 1, some 2] ∧
      subscript (parseModel farIndexObj).temp_positions (some 98) = none ∧
      loadModelWithTexture 1 (fun _ => 0) (some farIndexObj) "" = LoadResult.undefinedRead ∧
      loadModelWithTexture 1 (fun _ => 0) (some farIndexObj) "" ≠ LoadResult.openError ∧
      (⟨some 0, some 1, some 1⟩ : FaceRef) ∈ faceRefs zeroIndexObj ∧
      (parseModel zeroIndexObj).temp_positions.length = 3 ∧
      (parseModel zeroIndexObj).vertexIndices = [some 4294967295, some 1, some 2] ∧
      subscript (parseModel zeroIndexObj).temp_positions (some 4294967295) = none ∧
      loadModelWithTexture 1 (fun _ => 0) (some zeroIndexObj) "" = LoadResult.undefinedRead ∧
      loadModelWithTexture 1 (fun _ => 0) (some zeroIndexObj) "" ≠ LoadResult.openError := by
  decide!

/-- The loader has no bounds check.  It gives the error result exactly when the model
file cannot be opened; for a readable file whose arrays have at most `UINT_MAX`
entries and a face reference with an index `0` or above the size of its array, the
vertex loop evaluates a subscript outside the array. -/
theorem loadModel_unchecked_index (newVAO : Nat) (loadTexture : String → Nat)
    (textureFilePath : String) (lines : List Line) (r : FaceRef) (hr : r ∈ faceRefs lines)
    (hsize : (parseModel lines).temp_positions.length ≤ uintMax ∧
      (parseModel lines).temp_uvs.length ≤ uintMax ∧
      (parseModel lines).temp_normals.length ≤ uintMax)
    (hbad : r.outOfRange (parseModel lines)) :
    loadModelWithTexture newVAO loadTexture (some lines) textureFilePath
        = LoadResult.undefinedRead ∧
      ∀ file : File, loadModelWithTexture newVAO loadTexture file textureFilePath
        = LoadResult.openError ↔ file = none := by
  constructor
  · obtain ⟨i1, i2, i3⟩ := parseModel_indices lines
    obtain ⟨b1, b2, b3⟩ := faceRefs_bounded lines r hr
    have hnone : subscript (parseModel lines).temp_positions (r.v.map pred32) = none ∨
        subscript (parseModel lines).temp_uvs (r.vt.map pred32) = none ∨
        subscript (parseModel lines).temp_normals (r.vn.map pred32) = none := by
      rcases hbad with h | h | h
      · exact Or.inl (subscript_bad _ _ hsize.1 b1 h)
      · exact Or.inr (Or.inl (subscript_bad _ _ hsize.2.1 b2 h))
      · exact Or.inr (Or.inr (subscript_bad _ _ hsize.2.2 b3 h))
    simp only [loadModelWithTexture]
    rw [i1, i2, i3, buildVertexData_bad (parseModel lines) (faceRefs lines) r hr hnone]
  · intro file
    cases file with
    | none => simp [loadModelWithTexture]
    | some ls =>
      simp only [loadModelWithTexture]
      split <;> simp

/-- The unchecked subscript on the face that names vertex 99 of 3. -/
theorem loadModel_unchecked_index_witness :
    loadModelWithTexture 1 (fun _ => 0) (some farIndexObj) "" = LoadResult.undefinedRead :=
  (loadModel_unchecked_index 1 (fun _ => 0) "" farIndexObj ⟨some 99, some 1, some 1⟩
    (by decide!) (by decide!) (Or.inl ⟨99, rfl, Or.inr (by decide!)⟩)).1

/-! ## the vertex loop on parsed references -/

/-- The vertex loop on a file whose parsed references are complete and in range. -/
theorem loadModel_of_parsed_refs (newVAO : Nat) (loadTexture : String → Nat)
    (textureFilePath : String) (lines : List Line) (refs : List (Nat × Nat × Nat))
    (hrefs : faceRefs lines = refs.map FaceRef.ofTriple)
    (hrange : refsInRange (parseModel lines) refs) :
    loadModelWithTexture newVAO loadTexture (some lines) textureFilePath
        = LoadResult.loaded newVAO (expandRefs (parseModel lines) refs) (castInt refs.length)
          (if textureFilePath.isEmpty then 0 else loadTexture textureFilePath) := by
  obtain ⟨i1, i2, i3⟩ := parseModel_indices lines
  have hb : ∀ q ∈ refs, (FaceRef.ofTriple q).Bounded := by
    intro q hq
    apply faceRefs_bounded lines
    rw [hrefs]
    exact List.mem_map_of_mem _ hq
  simp only [loadModelWithTexture]
  rw [i1, i2, i3, hrefs, buildVertexData_inRange (parseModel lines) refs hb hrange]
  simp only [List.length_map]

/-! ## C10: malformed lines of a model file -/

/-- C10 on malformed lines: the line `v 1 2` appends a position whose `z` is
indeterminate, `vt x` and `vn` append an entry too, a face with two records or with
records `v/vt` appends three entries to every index stream.  The trajectory loader
skips its malformed line. -/
theorem malformed_model_lines_are_stored :
    (parseModel ["v 1 2"]).temp_positions = [⟨some 1, some 2, none⟩] ∧
      (parseModel ["vt x"]).temp_uvs = [⟨some 0, none⟩] ∧
      (parseModel ["vn"]).temp_normals = [⟨none, none, none⟩] ∧
      (parseModel ["f 1/1/1 2/2/2"]).vertexIndices = [some 0, some 1, none] ∧
      (parseModel ["f 1/1 2/2 3/3"]).normalIndices = [none, none, none] ∧
      trajectoryRecords ["1 2"] = [] := by
  decide!

/-! ## the rounding error of binary32 arithmetic -/

theorem floorLog2_spec : ∀ (fuel n : Nat), n ≤ fuel → 1 ≤ n →
    2 ^ floorLog2 fuel n ≤ n ∧ n < 2 ^ (floorLog2 fuel n + 1) := by
  intro fuel
  induction fuel with
  | zero => intro n h0 h1; omega
  | succ fuel ih =>
    intro n hle h1
    unfold floorLog2
    split_ifs with h2
    · constructor
      · simpa using h1
      · simpa using h2
    · obtain ⟨ha, hb⟩ := ih (n / 2) (by omega) (by omega)
      rw [pow_succ] at hb
      rw [pow_succ, pow_succ, pow_succ]
      constructor <;> omega

theorem roundHalfEven_error (N D : Nat) (hD : 0 < D) :
    2 * (roundHalfEven N D * D) ≤ 2 * N + D ∧ 2 * N ≤ 2 * (roundHalfEven N D * D) + D := by
  have hdm := Nat.div_add_mod N D
  have hmod := Nat.mod_lt N hD
  have hmul : N / D * D = D * (N / D) := Nat.mul_comm _ _
  have hmul1 : (N / D + 1) * D = D * (N / D) + D := by ring
  unfold roundHalfEven
  simp only
  split_ifs <;> (try rw [hmul1]) <;> (try rw [hmul]) <;> constructor <;> omega

theorem binExponent_eq (n d : Nat) :
    binExponent n d =
      if (if 0 ≤ (floorLog2 n n : Int) - (floorLog2 d d : Int) then
            decide (n < d * 2 ^ ((floorLog2 n n : Int) - (floorLog2 d d : Int)).toNat)
          else decide (n * 2 ^ (-((floorLog2 n n : Int) - (floorLog2 d d : Int))).toNat < d)) = true
      then (floorLog2 n n : Int) - (floorLog2 d d : Int) - 1
      else (floorLog2 n n : Int) - (floorLog2 d d : Int) := rfl

/-- The binary exponent found by `binExponent` is not above the true one. -/
theorem binExponent_forms (n d : Nat) (hn : 1 ≤ n) (hd : 1 ≤ d) :
    (∃ k : Nat, binExponent n d = (k : Int) ∧ d * 2 ^ k ≤ n) ∨
      (∃ k : Nat, binExponent n d = -(k : Int) ∧ d ≤ n * 2 ^ k) := by
  obtain ⟨na, nb⟩ := floorLog2_spec n n (le_refl n) hn
  obtain ⟨da, db⟩ := floorLog2_spec d d (le_refl d) hd
  rw [binExponent_eq]
  generalize floorLog2 n n = a at na nb ⊢
  generalize floorLog2 d d = b at da db ⊢
  by_cases hab : b ≤ a
  · obtain ⟨k, rfl⟩ := Nat.exists_eq_add_of_le hab
    have he0 : ((b + k : Nat) : Int) - (b : Int) = (k : Int) := by push_cast; ring
    rw [he0]
    simp only [Int.natCast_nonneg, if_true, Int.toNat_ofNat, decide_eq_true_eq]
    by_cases hlt : n < d * 2 ^ k
    · rw [if_pos hlt]
      cases k with
      | zero =>
        right
        refine ⟨1, by simp, ?_⟩
        rw [pow_succ] at db
        simp only [Nat.add_zero] at na
        omega
      | succ j =>
        left
        refine ⟨j, by omega, ?_⟩
        have h1 : d * 2 ^ j < 2 ^ (b + 1) * 2 ^ j :=
          Nat.mul_lt_mul_of_lt_of_le db (le_refl _) (Nat.pow_pos (by norm_num))
        have h2 : 2 ^ (b + 1) * 2 ^ j = 2 ^ (b + (j + 1)) := by
          rw [← pow_add]; congr 1; omega
        omega
    · rw [if_neg hlt]
      left
      exact ⟨k, rfl, by omega⟩
  · obtain ⟨j, rfl⟩ := Nat.exists_eq_add_of_lt (Nat.lt_of_not_le hab)
    have he0 : ((a : Nat) : Int) - ((a + j + 1 : Nat) : Int) = -((j + 1 : Nat) : Int) := by
      push_cast; ring
    rw [he0]
    have hneg : ¬ (0 : Int) ≤ -((j + 1 : Nat) : Int) := by
      omega
    simp only [hneg, if_false, neg_neg, Int.toNat_ofNat, decide_eq_true_eq]
    have hpow : 2 ^ (a + j + 1 + 1) = 2 ^ a * 2 ^ (j + 1 + 1) := by
      rw [← pow_add, Nat.add_assoc a j 1, Nat.add_assoc a (j + 1) 1]
    by_cases hlt : n * 2 ^ (j + 1) < d
    · rw [if_pos hlt]
      right
      refine ⟨j + 1 + 1, by omega, ?_⟩
      have h1 : 2 ^ a * 2 ^ (j + 1 + 1) ≤ n * 2 ^ (j + 1 + 1) := Nat.mul_le_mul_right _ na
      omega
    · rw [if_neg hlt]
      right
      exact ⟨j + 1, rfl, by omega⟩

theorem two_zpow_binExponent_le (n d : Nat) (hn : 1 ≤ n) (hd : 1 ≤ d) :
    (2 : ℚ) ^ binExponent n d ≤ (n : ℚ) / d := by
  have hdq : (0 : ℚ) < d := by exact_mod_cast hd
  rcases binExponent_forms n d hn hd with ⟨k, hk, hle⟩ | ⟨k, hk, hle⟩
  · rw [hk, zpow_natCast, le_div_iff₀ hdq]
    have : ((d * 2 ^ k : Nat) : ℚ) ≤ (n : ℚ) := by exact_mod_cast hle
    push_cast at this
    linarith
  · rw [hk, zpow_neg, zpow_natCast, inv_eq_one_div, div_le_div_iff₀ (by positivity) hdq]
    have : ((d : Nat) : ℚ) ≤ ((n * 2 ^ k : Nat) : ℚ) := by exact_mod_cast hle
    push_cast at this
    linarith

theorem roundPosF32_error (n d : Nat) (hd : 1 ≤ d) :
    |roundPosF32 n d - (n : ℚ) / d| ≤ (2 : ℚ) ^ (max (binExponent n d) (-126) - 24) := by
  have hdq : (0 : ℚ) < d := by exact_mod_cast hd
  unfold roundPosF32
  simp only
  generalize hs : max (binExponent n d) (-126) - 23 = s
  have hexp : max (binExponent n d) (-126) - 24 = s - 1 := by omega
  rw [hexp]
  by_cases hs0 : s ≤ 0
  · obtain ⟨m, rfl⟩ := Int.exists_eq_neg_ofNat hs0
    rw [if_pos hs0]
    simp only [neg_neg, Int.toNat_ofNat]
    obtain ⟨h1, h2⟩ := roundHalfEven_error (n * 2 ^ m) d hd
    generalize roundHalfEven (n * 2 ^ m) d = R at h1 h2
    have q1 : (2 : ℚ) * (R * d) ≤ 2 * (n * 2 ^ m) + d := by exact_mod_cast h1
    have q2 : (2 : ℚ) * (n * 2 ^ m) ≤ 2 * (R * d) + d := by exact_mod_cast h2
    have hp : (0 : ℚ) < 2 ^ m := by positivity
    have hR : Rat.divInt (R : Int) (2 ^ m) = (R : ℚ) / 2 ^ m := by
      rw [Rat.divInt_eq_div]; push_cast; rfl
    have hpow : (2 : ℚ) ^ (-(m : Int) - 1) = 1 / (2 * 2 ^ m) := by
      rw [show (-(m : Int) - 1) = -((m + 1 : Nat) : Int) by push_cast; ring, zpow_neg,
        zpow_natCast, pow_succ, inv_eq_one_div]
      ring
    have key : (R : ℚ) / 2 ^ m - (n : ℚ) / d = (R * d - n * 2 ^ m) / (2 ^ m * d) := by
      field_simp
      ring
    rw [hR, hpow, key, abs_le]
    constructor
    · rw [neg_le, ← neg_div, le_div_iff₀ (by positivity), div_mul_eq_mul_div,
        div_le_iff₀ (by positivity)]
      nlinarith
    · rw [div_le_div_iff₀ (by positivity) (by positivity)]
      nlinarith
  · have hs1 : 0 ≤ s := by omega
    obtain ⟨m, rfl⟩ := Int.eq_ofNat_of_zero_le hs1
    rw [if_neg hs0]
    simp only [Int.toNat_ofNat]
    obtain ⟨h1, h2⟩ := roundHalfEven_error n (d * 2 ^ m) (Nat.mul_pos hd (Nat.pow_pos (by norm_num)))
    generalize roundHalfEven n (d * 2 ^ m) = R at h1 h2
    have q1 : (2 : ℚ) * (R * (d * 2 ^ m)) ≤ 2 * n + d * 2 ^ m := by exact_mod_cast h1
    have q2 : (2 : ℚ) * n ≤ 2 * (R * (d * 2 ^ m)) + d * 2 ^ m := by exact_mod_cast h2
    have hp : (0 : ℚ) < 2 ^ m := by positivity
    have hpow : (2 : ℚ) ^ ((m : Int) - 1) = 2 ^ m / 2 := by
      rw [zpow_sub₀ (by norm_num), zpow_natCast, zpow_one]
    have key : ((R * 2 ^ m : Nat) : ℚ) - (n : ℚ) / d = (R * (d * 2 ^ m) - n) / d := by
      push_cast
      field_simp
      ring
    rw [hpow, key, abs_le]
    constructor
    · rw [le_div_iff₀ hdq]
      nlinarith
    · rw [div_le_div_iff₀ hdq (by norm_num)]
      nlinarith

theorem roundPosF32_nonneg (n d : Nat) : 0 ≤ roundPosF32 n d := by
  unfold roundPosF32
  simp only
  split_ifs
  · rw [Rat.divInt_eq_div]
    apply div_nonneg
    · exact_mod_cast Nat.zero_le _
    · push_cast
      positivity
  · exact_mod_cast Nat.zero_le _

theorem roundF32_neg (q : ℚ) : roundF32 (-q) = -roundF32 q := by
  unfold roundF32
  rcases lt_trichotomy q 0 with h | h | h
  · have h1 : ¬ (-q = 0) := by intro h0; linarith [neg_eq_zero.mp h0]
    have h2 : ¬ (-q < 0) := by linarith
    have h3 : ¬ (q = 0) := ne_of_lt h
    simp only [h1, h2, h3, h, if_false, if_true, Rat.neg_num, Rat.neg_den, Int.natAbs_neg,
      neg_neg]
  · subst h
    simp
  · have h1 : ¬ (-q = 0) := by intro h0; linarith [neg_eq_zero.mp h0]
    have h2 : -q < 0 := by linarith
    have h3 : ¬ (q = 0) := ne_of_gt h
    have h4 : ¬ (q < 0) := by linarith
    simp only [h1, h2, h3, h4, if_false, if_true, Rat.neg_num, Rat.neg_den, Int.natAbs_neg]

theorem roundF32_nonneg (q : ℚ) (h : 0 ≤ q) : 0 ≤ roundF32 q := by
  unfold roundF32
  split_ifs with h1 h2
  · exact le_refl 0
  · linarith
  · exact roundPosF32_nonneg _ _

theorem roundF32_nonpos (q : ℚ) (h : q ≤ 0) : roundF32 q ≤ 0 := by
  have := roundF32_nonneg (-q) (by linarith)
  rw [roundF32_neg] at this
  linarith

/-- The rounding error of a positive value is at most half a unit in the last place,
and the exponent used is not above the true one. -/
theorem roundF32_pos_error (q : ℚ) (h : 0 < q) :
    |roundF32 q - q| ≤ (2 : ℚ) ^ (max (binExponent q.num.natAbs q.den) (-126) - 24) ∧
      (2 : ℚ) ^ binExponent q.num.natAbs q.den ≤ q := by
  have hnum : 0 < q.num := Rat.num_pos.mpr h
  have hn : 1 ≤ q.num.natAbs := Int.natAbs_pos.mpr (ne_of_gt hnum)
  have hd : 1 ≤ q.den := q.den_pos
  have hq : ((q.num.natAbs : Nat) : ℚ) / (q.den : ℚ) = q := by
    have h1 : ((q.num.natAbs : Nat) : Int) = q.num := Int.natAbs_of_nonneg (le_of_lt hnum)
    have h2 : ((q.num.natAbs : Nat) : ℚ) = ((q.num : Int) : ℚ) := by
      rw [← Int.cast_natCast, h1]
    rw [h2]
    exact Rat.num_div_den q
  have e1 := roundPosF32_error q.num.natAbs q.den hd
  have e2 := two_zpow_binExponent_le q.num.natAbs q.den hn hd
  rw [hq] at e1 e2
  refine ⟨?_, e2⟩
  have hr : roundF32 q = roundPosF32 q.num.natAbs q.den := by
    unfold roundF32
    rw [if_neg (ne_of_gt h), if_neg (not_lt.mpr (le_of_lt h))]
  rw [hr]
  exact e1

theorem roundF32_zero_error : roundF32 0 - 0 = 0 := by
  rw [roundF32_zero, sub_zero]

/-- Absolute rounding error: a value below `2^(k+1)` in magnitude is rounded with an
error of at most `2^k / 2^24`. -/
theorem roundF32_abs_error (q : ℚ) (k : Nat) (h : |q| < 2 ^ (k + 1)) :
    |roundF32 q - q| ≤ 2 ^ k / 2 ^ 24 := by
  have hpos : ∀ r : ℚ, 0 < r → r < 2 ^ (k + 1) → |roundF32 r - r| ≤ 2 ^ k / 2 ^ 24 := by
    intro r hr hlt
    obtain ⟨e1, e2⟩ := roundF32_pos_error r hr
    generalize binExponent r.num.natAbs r.den = e at e1 e2
    have h3 : (2 : ℚ) ^ e < (2 : ℚ) ^ ((k + 1 : Nat) : Int) := by
      rw [zpow_natCast]
      exact lt_of_le_of_lt e2 hlt
    have h4 : e < ((k + 1 : Nat) : Int) := (zpow_lt_zpow_iff_right₀ (by norm_num)).mp h3
    have h5 : max e (-126) - 24 ≤ (k : Int) - 24 := by
      push_cast at h4
      omega
    have h6 : (2 : ℚ) ^ (max e (-126) - 24) ≤ (2 : ℚ) ^ ((k : Int) - 24) :=
      zpow_le_zpow_right₀ (by norm_num) h5
    have h7 : (2 : ℚ) ^ ((k : Int) - 24) = 2 ^ k / 2 ^ 24 := by
      rw [zpow_sub₀ (by norm_num), zpow_natCast]
      norm_num
    rw [h7] at h6
    exact le_trans e1 h6
  rcases lt_trichotomy q 0 with hq | hq | hq
  · have h1 := hpos (-q) (by linarith) (by rwa [abs_of_neg hq] at h)
    rw [roundF32_neg] at h1
    have h2 : -roundF32 q - -q = -(roundF32 q - q) := by ring
    rw [h2, abs_neg] at h1
    exact h1
  · subst hq
    rw [roundF32_zero_error, abs_zero]
    positivity
  · exact hpos q hq (by rwa [abs_of_pos hq] at h)

/-- Relative rounding error, with the absolute term of the subnormal range. -/
theorem roundF32_rel_error (q : ℚ) : |roundF32 q - q| ≤ |q| / 2 ^ 24 + 1 / 2 ^ 150 := by
  have hpos : ∀ r : ℚ, 0 < r → |roundF32 r - r| ≤ r / 2 ^ 24 + 1 / 2 ^ 150 := by
    intro r hr
    obtain ⟨e1, e2⟩ := roundF32_pos_error r hr
    generalize binExponent r.num.natAbs r.den = e at e1 e2
    by_cases he : -126 ≤ e
    · have h1 : max e (-126) - 24 = e - 24 := by omega
      have h2 : (2 : ℚ) ^ (e - 24) = 2 ^ e / 2 ^ 24 := by
        rw [zpow_sub₀ (by norm_num)]
        norm_num
      rw [h1, h2] at e1
      have h3 : (2 : ℚ) ^ e / 2 ^ 24 ≤ r / 2 ^ 24 :=
        div_le_div_of_nonneg_right e2 (by positivity)
      have h4 : (0 : ℚ) ≤ 1 / 2 ^ 150 := by positivity
      linarith
    · have h1 : max e (-126) - 24 = -150 := by omega
      have h2 : (2 : ℚ) ^ (-150 : Int) = 1 / 2 ^ 150 := by
        rw [zpow_neg, inv_eq_one_div]
        norm_num
      rw [h1, h2] at e1
      have h4 : (0 : ℚ) ≤ r / 2 ^ 24 := by positivity
      linarith
  rcases lt_trichotomy q 0 with hq | hq | hq
  · have h1 := hpos (-q) (by linarith)
    rw [roundF32_neg] at h1
    have h2 : -roundF32 q - -q = -(roundF32 q - q) := by ring
    rw [h2, abs_neg] at h1
    rw [abs_of_neg hq]
    exact h1
  · subst hq
    rw [roundF32_zero_error, abs_zero]
    positivity
  · rw [abs_of_pos hq]
    exact hpos q hq

/-! ## C13: the scale factor over the life of an entity -/

theorem materialLine_scale (e : Entity) (l : Line) :
    (materialLine e l).scaleFactor = e.scaleFactor := by
  simp only [materialLine]
  split_ifs <;> rfl

theorem loadMaterial_scale (e : Entity) (file : File) :
    (e.loadMaterial file).scaleFactor = e.scaleFactor := by
  cases file with
  | none => rfl
  | some lines =>
    simp only [Entity.loadMaterial]
    induction lines generalizing e with
    | nil => rfl
    | cons l ls ih => rw [List.foldl_cons, ih, materialLine_scale]

theorem init_scale (pf : Platform) (e e1 : Entity) (h : e.init pf = some e1) :
    e1.scaleFactor = e.scaleFactor := by
  unfold Entity.init at h
  split at h
  · simp only [Option.some.injEq] at h
    rw [← h]
    exact loadMaterial_scale e _
  · exact absurd h (by simp)
  · simp only [Option.some.injEq] at h
    rw [← h]
    exact loadMaterial_scale e _

theorem loadBezier_scale (e : Entity) (file : File) :
    (e.loadBezierControlPoints file).scaleFactor = e.scaleFactor := by
  cases file with
  | none => rfl
  | some lines =>
    simp only [Entity.loadBezierControlPoints, Entity.activateBezier]
    split <;> rfl

theorem updateBezier_scale (e : Entity) :
    e.updateBezierTrajectory.scaleFactor = e.scaleFactor := by
  unfold Entity.updateBezierTrajectory
  split <;> rfl

theorem lit0_1_bounds : (1 : ℚ) / 10 ≤ lit0_1 ∧ lit0_1 ≤ 1 / 10 + 1 / 2 ^ 26 := by decide!

theorem scaleUp_inRange (e : Entity) (h : e.scaleInRange) : e.scaleUp.scaleInRange := by
  obtain ⟨h1, h2⟩ := h
  obtain ⟨c1, c2⟩ := lit0_1_bounds
  refine ⟨?_, stdMin_le_right _ _⟩
  have herr := roundF32_abs_error (e.scaleFactor + lit0_1) 0
    (by rw [abs_of_nonneg (by linarith)]; norm_num at c2 ⊢; linarith)
  rw [abs_le] at herr
  simp only [Entity.scaleUp, stdMin, fadd]
  norm_num at herr c2
  split_ifs <;> linarith

theorem scaleDown_inRange (e : Entity) (h : e.scaleInRange) : e.scaleDown.scaleInRange := by
  obtain ⟨h1, h2⟩ := h
  obtain ⟨c1, c2⟩ := lit0_1_bounds
  refine ⟨le_trans c1 (le_stdMax_right _ _), ?_⟩
  have herr := roundF32_abs_error (e.scaleFactor - lit0_1) 0
    (by rw [abs_lt]; norm_num at c2 ⊢; constructor <;> linarith)
  rw [abs_le] at herr
  simp only [Entity.scaleDown, stdMax, fsub]
  norm_num at herr c2
  split_ifs <;> linarith

theorem apply_inRange (e e1 : Entity) (m : Mutator) (h : e.scaleInRange)
    (hm : e.apply m = some e1) : e1.scaleInRange := by
  have keep : e1.scaleFactor = e.scaleFactor → e1.scaleInRange := by
    intro hk
    unfold Entity.scaleInRange
    rw [hk]
    exact h
  cases m with
  | init pf => exact keep (init_scale pf e e1 hm)
  | scaleUp =>
    simp only [Entity.apply, Option.some.injEq] at hm
    rw [← hm]
    exact scaleUp_inRange e h
  | scaleDown =>
    simp only [Entity.apply, Option.some.injEq] at hm
    rw [← hm]
    exact scaleDown_inRange e h
  | loadBezierControlPoints file =>
    simp only [Entity.apply, Option.some.injEq] at hm
    exact keep (by rw [← hm]; exact loadBezier_scale e file)
  | updateBezierTrajectory =>
    simp only [Entity.apply, Option.some.injEq] at hm
    exact keep (by rw [← hm]; exact updateBezier_scale e)
  | toggleRotateX | toggleRotateY | toggleRotateZ | moveForward | moveBackward =>
    simp only [Entity.apply, Option.some.injEq] at hm
    exact keep (by rw [← hm]; rfl)

theorem run_inRange (ms : List Mutator) : ∀ (e e1 : Entity), e.scaleInRange →
    e.run ms = some e1 → e1.scaleInRange := by
  induction ms with
  | nil =>
    intro e e1 h hr
    simp only [Entity.run, Option.some.injEq] at hr
    rw [← hr]
    exact h
  | cons m ms ih =>
    intro e e1 h hr
    simp only [Entity.run] at hr
    split at hr
    · exact absurd hr (by simp)
    · rename_i e2 hm
      exact ih e2 e1 (apply_inRange e e2 m h hm) hr

/-- C13 fails for an initial scale outside `[0.1, 1.0]`: the constructor stores
`initialScale = 5` as it is, `scaleDown` leaves `4.9f`, and from `initialScale = -1`
a `scaleUp` leaves a negative scale. -/
theorem scale_invariant_counterexample :
    ((Entity.new 1 2 3 ⟨0, 0, 0⟩ 5 "cube.obj" "cube.mtl" "cube.png" ⟨0, 0, 0⟩ ⟨7, 7, 7⟩).run
        []).map Entity.scaleFactor = some 5 ∧
      ((Entity.new 1 2 3 ⟨0, 0, 0⟩ 5 "cube.obj" "cube.mtl" "cube.png" ⟨0, 0, 0⟩ ⟨7, 7, 7⟩).run
        [Mutator.toggleRotateY, Mutator.scaleDown, Mutator.moveForward]).map Entity.scaleFactor
        = some (10276045 / 2097152) ∧
      (1 : ℚ) < 10276045 / 2097152 ∧
      ((Entity.new 1 2 3 ⟨0, 0, 0⟩ (-1) "cube.obj" "cube.mtl" "cube.png" ⟨0, 0, 0⟩
        ⟨7, 7, 7⟩).run [Mutator.scaleUp]).map Entity.scaleFactor = some (-15099494 / 16777216) ∧
      (-15099494 : ℚ) / 16777216 < 1 / 10 := by
  decide!

/-- C13, amended.  When the entity is constructed with an `initialScale` in
`[0.1, 1.0]`, the scale factor lies in `[0.1, 1.0]` in every state reached by a
sequence of `scaleUp`, `scaleDown` and the other calls that change an entity. -/
theorem scale_invariant (x y z : ℚ) (baseColor : Vec3) (initialScale : ℚ)
    (objFilePath mtlFilePath textureFilePath : String) (initialRotation rotation0 : Vec3)
    (hlo : 1 / 10 ≤ initialScale) (hhi : initialScale ≤ 1) (ms : List Mutator) (e1 : Entity)
    (hrun : (Entity.new x y z baseColor initialScale objFilePath mtlFilePath textureFilePath
      initialRotation rotation0).run ms = some e1) :
    1 / 10 ≤ e1.scaleFactor ∧ e1.scaleFactor ≤ 1 :=
  run_inRange ms _ e1 ⟨hlo, hhi⟩ hrun

theorem sampleSession_runs : (sampleEntity.run sampleSession).isSome = true := by decide!

/-- C13, amended, on the sample entity (initial scale `0.5`) and the sample session:
the session runs, and ends with a scale in `[0.1, 1.0]`. -/
theorem scale_invariant_witness :
    ∃ e1 : Entity, sampleEntity.run sampleSession = some e1 ∧
      1 / 10 ≤ e1.scaleFactor ∧ e1.scaleFactor ≤ 1 :=
  ⟨(sampleEntity.run sampleSession).get sampleSession_runs,
    (Option.some_get sampleSession_runs).symm,
    scale_invariant 1 2 3 ⟨0, 0, 0⟩ (1 / 2) "cube.obj" "cube.mtl" "cube.png" ⟨0, 0, 0⟩ ⟨7, 7, 7⟩
      (by norm_num) (by norm_num) sampleSession
      ((sampleEntity.run sampleSession).get sampleSession_runs)
      (Option.some_get sampleSession_runs).symm⟩

/-! ## C11: `scaleUp` then `scaleDown` -/

theorem scale_midpoint_literal :
    stdMax (fsub (stdMin (fadd (1 / 2) lit0_1) 1) lit0_1) lit0_1 = 1 / 2 := by decide!

/-- C11 fails at the scale `0.2f`: `scaleUp` gives `0.3f`, and `0.3f - 0.1f` rounds to
the binary32 value above `0.2f`. -/
theorem scale_round_trip_counterexample :
    (13421773 : ℚ) / 67108864 = roundF32 (1 / 5) ∧
      (1 : ℚ) / 10 ≤ 13421773 / 67108864 ∧ (13421773 : ℚ) / 67108864 ≤ 9 / 10 ∧
      ({ sampleEntity with scaleFactor := 13421773 / 67108864 } : Entity).scaleUp.scaleFactor
        = roundF32 (3 / 10) ∧
      ({ sampleEntity with scaleFactor := 13421773 / 67108864 } :
        Entity).scaleUp.scaleDown.scaleFactor = 6710887 / 33554432 ∧
      (6710887 : ℚ) / 33554432 ≠ 13421773 / 67108864 := by
  decide!

theorem scale_round_trip_value (s : ℚ) (hlo : 1 / 10 ≤ s) (hhi : s ≤ 9 / 10) :
    |stdMax (fsub (stdMin (fadd s lit0_1) 1) lit0_1) lit0_1 - s| ≤ 1 / 2 ^ 23 := by
  obtain ⟨c1, c2⟩ := lit0_1_bounds
  norm_num at c2
  have ha := roundF32_abs_error (s + lit0_1) 0
    (by rw [abs_of_nonneg (by linarith)]; norm_num; linarith)
  rw [abs_le] at ha
  norm_num at ha
  unfold fadd
  generalize roundF32 (s + lit0_1) = a at ha
  have hu : ∀ u : ℚ, -(1 / 16777216 : ℚ) ≤ u - (s + lit0_1) → u - (s + lit0_1) ≤ 1 / 16777216 →
      u ≤ 1 → |stdMax (fsub u lit0_1) lit0_1 - s| ≤ 1 / 2 ^ 23 := by
    intro u h1 h2 h3
    have hx := roundF32_abs_error (u - lit0_1) 0
      (by rw [abs_lt]; norm_num; constructor <;> linarith)
    rw [abs_le] at hx
    norm_num at hx
    unfold fsub stdMax
    generalize roundF32 (u - lit0_1) = x at hx
    rw [abs_le]
    norm_num
    split_ifs <;> constructor <;> linarith
  unfold stdMin
  split_ifs with h
  · exact hu 1 (by norm_num; linarith) (by norm_num; linarith) (le_refl 1)
  · exact hu a (by norm_num; linarith) (by norm_num; linarith) (not_lt.mp h)

/-- C11, amended.  For every scale factor `s` with `0.1 ≤ s ≤ 0.9`, `scaleUp`
followed by `scaleDown` returns a scale factor within `2^-23` of `s`, and leaves
every other member as it was; at the midpoint `0.5` the entity is back exactly. -/
theorem scale_round_trip (e : Entity) (hlo : 1 / 10 ≤ e.scaleFactor)
    (hhi : e.scaleFactor ≤ 9 / 10) :
    |e.scaleUp.scaleDown.scaleFactor - e.scaleFactor| ≤ 1 / 2 ^ 23 ∧
      e.scaleUp.scaleDown = { e with scaleFactor := e.scaleUp.scaleDown.scaleFactor } ∧
      (e.scaleFactor = 1 / 2 → e.scaleUp.scaleDown = e) := by
  refine ⟨scale_round_trip_value e.scaleFactor hlo hhi, rfl, ?_⟩
  intro h
  cases e
  simp only at h
  subst h
  simp only [Entity.scaleUp, Entity.scaleDown, scale_midpoint_literal]

/-- C11, amended, at the midpoint and at `0.2f`. -/
theorem scale_round_trip_witness :
    ({ sampleEntity with scaleFactor := 1 / 2 } : Entity).scaleUp.scaleDown
        = { sampleEntity with scaleFactor := 1 / 2 } ∧
      |({ sampleEntity with scaleFactor := 13421773 / 67108864 } :
        Entity).scaleUp.scaleDown.scaleFactor - 13421773 / 67108864| ≤ 1 / 2 ^ 23 :=
  ⟨(scale_round_trip { sampleEntity with scaleFactor := 1 / 2 } (by norm_num)
      (by norm_num)).2.2 rfl,
    (scale_round_trip { sampleEntity with scaleFactor := 13421773 / 67108864 } (by norm_num)
      (by norm_num)).1⟩

/-! ## C12: the blend weights -/

theorem cubicBezier_blend (p0 p1 p2 p3 : Vec3) (t : ℚ) :
    cubicBezier p0 p1 p2 p3 t =
      ⟨blend (bezierWeights t) p0.x p1.x p2.x p3.x, blend (bezierWeights t) p0.y p1.y p2.y p3.y,
        blend (bezierWeights t) p0.z p1.z p2.z p3.z⟩ := rfl

/-- The error of a rounded product of two approximations. -/
theorem fmul_error (a b A B α β MA MB : ℚ) (k : Nat) (ha : |a - A| ≤ α) (hb : |b - B| ≤ β)
    (hA : |A| ≤ MA) (hB : |B| ≤ MB) (hk : (MA + α) * (MB + β) < 2 ^ (k + 1)) :
    |fmul a b - A * B| ≤ α * (MB + β) + MA * β + 2 ^ k / 2 ^ 24 := by
  have hα : 0 ≤ α := le_trans (abs_nonneg _) ha
  have hβ : 0 ≤ β := le_trans (abs_nonneg _) hb
  have hMA : 0 ≤ MA := le_trans (abs_nonneg _) hA
  have hMB : 0 ≤ MB := le_trans (abs_nonneg _) hB
  have ha' : |a| ≤ MA + α := by
    have : |a| ≤ |A| + |a - A| := by
      have := abs_add A (a - A)
      rwa [add_sub_cancel] at this
    linarith
  have hb' : |b| ≤ MB + β := by
    have : |b| ≤ |B| + |b - B| := by
      have := abs_add B (b - B)
      rwa [add_sub_cancel] at this
    linarith
  have hab : |a * b| < 2 ^ (k + 1) := by
    rw [abs_mul]
    exact lt_of_le_of_lt (mul_le_mul ha' hb' (abs_nonneg b) (by linarith)) hk
  have hr := roundF32_abs_error (a * b) k hab
  have hsplit : a * b - A * B = (a - A) * b + A * (b - B) := by ring
  have h1 : |(a - A) * b| ≤ α * (MB + β) := by
    rw [abs_mul]
    exact mul_le_mul ha hb' (abs_nonneg b) hα
  have h2 : |A * (b - B)| ≤ MA * β := by
    rw [abs_mul]
    exact mul_le_mul hA hb (abs_nonneg _) hMA
  have h3 : |a * b - A * B| ≤ α * (MB + β) + MA * β := by
    rw [hsplit]
    exact le_trans (abs_add _ _) (by linarith)
  have h4 : fmul a b - A * B = (roundF32 (a * b) - a * b) + (a * b - A * B) := by
    unfold fmul; ring
  rw [h4]
  exact le_trans (abs_add _ _) (by linarith)

theorem abs_le_near (x X e M B : ℚ) (h : |x - X| ≤ e) (hX : |X| ≤ M) (hB : M + e ≤ B) :
    |x| ≤ B := by
  have : |x| ≤ |X| + |x - X| := by
    have := abs_add X (x - X)
    rwa [add_sub_cancel] at this
  linarith

theorem abs_mul_le (a b A B : ℚ) (ha : |a| ≤ A) (hb : |b| ≤ B) : |a * b| ≤ A * B := by
  rw [abs_mul]
  exact mul_le_mul ha hb (abs_nonneg b) (le_trans (abs_nonneg a) ha)

/-- Each weight `cubicBezier` computes is the polynomial weight up to a few rounding
errors, and no value rounded on the way exceeds 4 in magnitude. -/
theorem bezierWeights_error (t : ℚ) (h0 : 0 ≤ t) (h1 : t ≤ 1) :
    (|(bezierWeights t).1 - (1 - t) ^ 3| ≤ 7 / 2 ^ 24 ∧
      |(bezierWeights t).2.1 - 3 * (1 - t) ^ 2 * t| ≤ 13 / 2 ^ 24 ∧
      |(bezierWeights t).2.2.1 - 3 * (1 - t) * t ^ 2| ≤ 9 / 2 ^ 24 ∧
      |(bezierWeights t).2.2.2 - t ^ 3| ≤ 2 / 2 ^ 24) ∧
      ∀ q ∈ weightSteps t, |q| ≤ 4 := by
  have hU0 : 0 ≤ 1 - t := by linarith
  have hU1 : 1 - t ≤ 1 := by linarith
  have hU : |1 - t| ≤ 1 := by rw [abs_of_nonneg hU0]; exact hU1
  have hT : |t| ≤ 1 := by rw [abs_of_nonneg h0]; exact h1
  have hu : |fsub 1 t - (1 - t)| ≤ 1 / 2 ^ 24 := by
    have := roundF32_abs_error (1 - t) 0 (by rw [abs_of_nonneg hU0]; norm_num; linarith)
    simpa [fsub] using this
  simp only [bezierWeights, weightSteps]
  generalize fsub 1 t = u at hu
  generalize 1 - t = U at hU0 hU1 hU hu
  have h3 : |(3 : ℚ) - 3| ≤ 0 := by simp
  have hA3 : |(3 : ℚ)| ≤ 3 := by norm_num
  have ht : |t - t| ≤ 0 := by simp
  have hUU : |U * U| ≤ 1 := by
    rw [abs_of_nonneg (mul_nonneg hU0 hU0)]; nlinarith
  have h3U : |3 * U| ≤ 3 := by
    rw [abs_of_nonneg (by linarith)]; linarith
  have h3UU : |3 * U * U| ≤ 3 := by
    rw [abs_of_nonneg (by nlinarith)]; nlinarith
  have h3Ut : |3 * U * t| ≤ 3 := by
    rw [abs_of_nonneg (by nlinarith)]; nlinarith
  have htt0 : |t * t| ≤ 1 := by
    rw [abs_of_nonneg (mul_nonneg h0 h0)]; nlinarith
  have huu : |fmul u u - U * U| ≤ 4 / 2 ^ 24 :=
    le_trans (fmul_error u u U U _ _ 1 1 0 hu hu hU hU (by norm_num)) (by norm_num)
  have hw0 : |fmul (fmul u u) u - U * U * U| ≤ 7 / 2 ^ 24 :=
    le_trans (fmul_error (fmul u u) u (U * U) U _ _ 1 1 0 huu hu hUU hU (by norm_num))
      (by norm_num)
  have hu3 : |fmul 3 u - 3 * U| ≤ 5 / 2 ^ 24 :=
    le_trans (fmul_error 3 u 3 U _ _ 3 1 1 h3 hu hA3 hU (by norm_num)) (by norm_num)
  have hu3u : |fmul (fmul 3 u) u - 3 * U * U| ≤ 11 / 2 ^ 24 :=
    le_trans (fmul_error (fmul 3 u) u (3 * U) U _ _ 3 1 1 hu3 hu h3U hU (by norm_num))
      (by norm_num)
  have hw1 : |fmul (fmul (fmul 3 u) u) t - 3 * U * U * t| ≤ 13 / 2 ^ 24 :=
    le_trans (fmul_error (fmul (fmul 3 u) u) t (3 * U * U) t _ _ 3 1 1 hu3u ht h3UU hT
      (by norm_num)) (by norm_num)
  have hu3t : |fmul (fmul 3 u) t - 3 * U * t| ≤ 7 / 2 ^ 24 :=
    le_trans (fmul_error (fmul 3 u) t (3 * U) t _ _ 3 1 1 hu3 ht h3U hT (by norm_num))
      (by norm_num)
  have hw2 : |fmul (fmul (fmul 3 u) t) t - 3 * U * t * t| ≤ 9 / 2 ^ 24 :=
    le_trans (fmul_error (fmul (fmul 3 u) t) t (3 * U * t) t _ _ 3 1 1 hu3t ht h3Ut hT
      (by norm_num)) (by norm_num)
  have htt : |fmul t t - t * t| ≤ 1 / 2 ^ 24 :=
    le_trans (fmul_error t t t t _ _ 1 1 0 ht ht hT hT (by norm_num)) (by norm_num)
  have hw3 : |fmul (fmul t t) t - t * t * t| ≤ 2 / 2 ^ 24 :=
    le_trans (fmul_error (fmul t t) t (t * t) t _ _ 1 1 0 htt ht htt0 hT (by norm_num))
      (by norm_num)
  have e0 : U ^ 3 = U * U * U := by ring
  have e1 : 3 * U ^ 2 * t = 3 * U * U * t := by ring
  have e2 : 3 * U * t ^ 2 = 3 * U * t * t := by ring
  have e3 : t ^ 3 = t * t * t := by ring
  rw [e0, e1, e2, e3]
  refine ⟨⟨hw0, hw1, hw2, hw3⟩, ?_⟩
  intro q hq
  simp only [List.mem_cons, List.mem_singleton, List.not_mem_nil, or_false] at hq
  rcases hq with rfl | rfl | rfl | rfl | rfl | rfl | rfl | rfl | rfl | rfl
  · exact abs_le_near _ _ _ _ _ hu hU (by norm_num)
  · exact abs_le_near _ _ _ _ _ huu hUU (by norm_num)
  · exact abs_le_near _ _ _ _ _ hw0 (abs_mul_le _ _ _ _ hUU hU) (by norm_num)
  · exact abs_le_near _ _ _ _ _ hu3 h3U (by norm_num)
  · exact abs_le_near _ _ _ _ _ hu3u h3UU (by norm_num)
  · exact abs_le_near _ _ _ _ _ hw1 (abs_mul_le _ _ _ _ h3UU hT) (by norm_num)
  · exact abs_le_near _ _ _ _ _ hu3t h3Ut (by norm_num)
  · exact abs_le_near _ _ _ _ _ hw2 (abs_mul_le _ _ _ _ h3Ut hT) (by norm_num)
  · exact abs_le_near _ _ _ _ _ htt htt0 (by norm_num)
  · exact abs_le_near _ _ _ _ _ hw3 (abs_mul_le _ _ _ _ htt0 hT) (by norm_num)

theorem rel_step (q M : ℚ) (h : |q| ≤ M) : |roundF32 q - q| ≤ M / 2 ^ 24 + 1 / 2 ^ 150 := by
  have h1 := roundF32_rel_error q
  have h2 : |q| / 2 ^ 24 ≤ M / 2 ^ 24 := div_le_div_of_nonneg_right h (by positivity)
  linarith

theorem abs_weight_mul_le (c p : ℚ) (h0 : 0 ≤ c) (h1 : c ≤ 1) : |c * p| ≤ |p| := by
  rw [abs_mul, abs_of_nonneg h0]
  exact mul_le_of_le_one_left (abs_nonneg p) h1

theorem weight_mul_error (w W p c : ℚ) (h : |w - W| ≤ c) : |w * p - W * p| ≤ c * |p| := by
  rw [← sub_mul, abs_mul]
  exact mul_le_mul_of_nonneg_right h (abs_nonneg p)

/-- The blend of four equal coordinates, with weights that are within rounding of
non-negative weights of sum 1, is the coordinate up to rounding. -/
theorem blend_same_error (w : ℚ × ℚ × ℚ × ℚ) (W0 W1 W2 W3 p : ℚ) (hW0 : 0 ≤ W0)
    (hW1 : 0 ≤ W1) (hW2 : 0 ≤ W2) (hW3 : 0 ≤ W3) (hsum : W0 + W1 + W2 + W3 = 1)
    (h0 : |w.1 - W0| ≤ 7 / 2 ^ 24) (h1 : |w.2.1 - W1| ≤ 13 / 2 ^ 24)
    (h2 : |w.2.2.1 - W2| ≤ 9 / 2 ^ 24) (h3 : |w.2.2.2 - W3| ≤ 2 / 2 ^ 24) :
    |blend w p p p p - p| ≤ |p| / 2 ^ 18 + 1 / 2 ^ 147 := by
  have hP : 0 ≤ |p| := abs_nonneg p
  have hpa : p ≤ |p| := le_abs_self p
  have hpb : -|p| ≤ p := neg_abs_le p
  have hp : p = W0 * p + W1 * p + W2 * p + W3 * p := by
    rw [← add_mul, ← add_mul, ← add_mul, hsum, one_mul]
  -- the exact partial sums
  have x0 := abs_le.mp (abs_weight_mul_le W0 p hW0 (by linarith))
  have x1 := abs_le.mp (abs_weight_mul_le W1 p hW1 (by linarith))
  have x2 := abs_le.mp (abs_weight_mul_le W2 p hW2 (by linarith))
  have x3 := abs_le.mp (abs_weight_mul_le W3 p hW3 (by linarith))
  have x01 := abs_le.mp (abs_weight_mul_le (W0 + W1) p (by linarith) (by linarith))
  have x012 := abs_le.mp (abs_weight_mul_le (W0 + W1 + W2) p (by linarith) (by linarith))
  rw [add_mul] at x01
  rw [add_mul, add_mul] at x012
  -- the products before rounding
  have b0 := abs_le.mp (weight_mul_error w.1 W0 p _ h0)
  have b1 := abs_le.mp (weight_mul_error w.2.1 W1 p _ h1)
  have b2 := abs_le.mp (weight_mul_error w.2.2.1 W2 p _ h2)
  have b3 := abs_le.mp (weight_mul_error w.2.2.2 W3 p _ h3)
  norm_num at b0 b1 b2 b3
  -- the rounded products
  have r0 := abs_le.mp (rel_step (w.1 * p) (2 * |p|) (abs_le.mpr ⟨by linarith, by linarith⟩))
  have r1 := abs_le.mp (rel_step (w.2.1 * p) (2 * |p|) (abs_le.mpr ⟨by linarith, by linarith⟩))
  have r2 := abs_le.mp (rel_step (w.2.2.1 * p) (2 * |p|)
    (abs_le.mpr ⟨by linarith, by linarith⟩))
  have r3 := abs_le.mp (rel_step (w.2.2.2 * p) (2 * |p|)
    (abs_le.mpr ⟨by linarith, by linarith⟩))
  norm_num at r0 r1 r2 r3
  unfold blend fadd fmul
  generalize roundF32 (w.1 * p) = a0 at r0
  generalize roundF32 (w.2.1 * p) = a1 at r1
  generalize roundF32 (w.2.2.1 * p) = a2 at r2
  generalize roundF32 (w.2.2.2 * p) = a3 at r3
  -- the rounded sums
  have s1 := abs_le.mp (rel_step (a0 + a1) (2 * |p| + 1 / 2 ^ 140)
    (abs_le.mpr ⟨by norm_num; linarith, by norm_num; linarith⟩))
  norm_num at s1
  generalize roundF32 (a0 + a1) = c1 at s1
  have s2 := abs_le.mp (rel_step (c1 + a2) (2 * |p| + 1 / 2 ^ 140)
    (abs_le.mpr ⟨by norm_num; linarith, by norm_num; linarith⟩))
  norm_num at s2
  generalize roundF32 (c1 + a2) = c2 at s2
  have s3 := abs_le.mp (rel_step (c2 + a3) (2 * |p| + 1 / 2 ^ 140)
    (abs_le.mpr ⟨by norm_num; linarith, by norm_num; linarith⟩))
  norm_num at s3
  generalize roundF32 (c2 + a3) = c3 at s3
  rw [abs_le]
  norm_num
  constructor <;> linarith

/-- With a coordinate of magnitude at most `2^127`, no product or sum of the blend
exceeds `FLT_MAX` in magnitude. -/
theorem blend_same_steps (w : ℚ × ℚ × ℚ × ℚ) (W0 W1 W2 W3 p : ℚ) (hW0 : 0 ≤ W0)
    (hW1 : 0 ≤ W1) (hW2 : 0 ≤ W2) (hW3 : 0 ≤ W3) (hsum : W0 + W1 + W2 + W3 = 1)
    (h0 : |w.1 - W0| ≤ 7 / 2 ^ 24) (h1 : |w.2.1 - W1| ≤ 13 / 2 ^ 24)
    (h2 : |w.2.2.1 - W2| ≤ 9 / 2 ^ 24) (h3 : |w.2.2.2 - W3| ≤ 2 / 2 ^ 24)
    (hmag : |p| ≤ 170141183460469231731687303715884105728) :
    ∀ q ∈ blendSteps w p p p p, |q| ≤ fltMax := by
  have hP : 0 ≤ |p| := abs_nonneg p
  have hpa : p ≤ |p| := le_abs_self p
  have hpb : -|p| ≤ p := neg_abs_le p
  have e3 := abs_le.mp (blend_same_error w W0 W1 W2 W3 p hW0 hW1 hW2 hW3 hsum h0 h1 h2 h3)
  have x0 := abs_le.mp (abs_weight_mul_le W0 p hW0 (by linarith))
  have x1 := abs_le.mp (abs_weight_mul_le W1 p hW1 (by linarith))
  have x2 := abs_le.mp (abs_weight_mul_le W2 p hW2 (by linarith))
  have x3 := abs_le.mp (abs_weight_mul_le W3 p hW3 (by linarith))
  have x01 := abs_le.mp (abs_weight_mul_le (W0 + W1) p (by linarith) (by linarith))
  have x012 := abs_le.mp (abs_weight_mul_le (W0 + W1 + W2) p (by linarith) (by linarith))
  rw [add_mul] at x01
  rw [add_mul, add_mul] at x012
  have b0 := abs_le.mp (weight_mul_error w.1 W0 p _ h0)
  have b1 := abs_le.mp (weight_mul_error w.2.1 W1 p _ h1)
  have b2 := abs_le.mp (weight_mul_error w.2.2.1 W2 p _ h2)
  have b3 := abs_le.mp (weight_mul_error w.2.2.2 W3 p _ h3)
  norm_num at b0 b1 b2 b3
  have r0 := abs_le.mp (rel_step (w.1 * p) (2 * |p|)
    (abs_le.mpr ⟨by linarith only [b0.1, x0.1, hP], by linarith only [b0.2, x0.2, hP]⟩))
  have r1 := abs_le.mp (rel_step (w.2.1 * p) (2 * |p|)
    (abs_le.mpr ⟨by linarith only [b1.1, x1.1, hP], by linarith only [b1.2, x1.2, hP]⟩))
  have r2 := abs_le.mp (rel_step (w.2.2.1 * p) (2 * |p|)
    (abs_le.mpr ⟨by linarith only [b2.1, x2.1, hP], by linarith only [b2.2, x2.2, hP]⟩))
  have r3 := abs_le.mp (rel_step (w.2.2.2 * p) (2 * |p|)
    (abs_le.mpr ⟨by linarith only [b3.1, x3.1, hP], by linarith only [b3.2, x3.2, hP]⟩))
  norm_num at r0 r1 r2 r3
  unfold blend at e3
  unfold blendSteps fltMax
  unfold fadd fmul at e3 ⊢
  generalize roundF32 (w.1 * p) = a0 at r0 e3
  generalize roundF32 (w.2.1 * p) = a1 at r1 e3
  generalize roundF32 (w.2.2.1 * p) = a2 at r2 e3
  generalize roundF32 (w.2.2.2 * p) = a3 at r3 e3
  have s1 := abs_le.mp (rel_step (a0 + a1) (2 * |p| + 1 / 2 ^ 140)
    (abs_le.mpr ⟨by norm_num; linarith only [r0.1, r1.1, b0.1, b1.1, x01.1, hP],
      by norm_num; linarith only [r0.2, r1.2, b0.2, b1.2, x01.2, hP]⟩))
  norm_num at s1
  generalize roundF32 (a0 + a1) = c1 at s1 e3
  have s2 := abs_le.mp (rel_step (c1 + a2) (2 * |p| + 1 / 2 ^ 140)
    (abs_le.mpr ⟨by norm_num; linarith only [s1.1, r0.1, r1.1, r2.1, b0.1, b1.1, b2.1,
        x012.1, hP],
      by norm_num; linarith only [s1.2, r0.2, r1.2, r2.2, b0.2, b1.2, b2.2, x012.2, hP]⟩))
  norm_num at s2
  generalize roundF32 (c1 + a2) = c2 at s2 e3
  generalize roundF32 (c2 + a3) = c3 at e3
  norm_num at e3
  intro q hq
  simp only [List.mem_cons, List.mem_singleton, List.not_mem_nil, or_false] at hq
  rcases hq with rfl | rfl | rfl | rfl | rfl | rfl | rfl
  · rw [abs_le]
    norm_num
    constructor <;> linarith only [r0.1, r0.2, b0.1, b0.2, x0.1, x0.2, hmag, hP]
  · rw [abs_le]
    norm_num
    constructor <;> linarith only [r1.1, r1.2, b1.1, b1.2, x1.1, x1.2, hmag, hP]
  · rw [abs_le]
    norm_num
    constructor <;> linarith only [r2.1, r2.2, b2.1, b2.2, x2.1, x2.2, hmag, hP]
  · rw [abs_le]
    norm_num
    constructor <;> linarith only [r3.1, r3.2, b3.1, b3.2, x3.1, x3.2, hmag, hP]
  · rw [abs_le]
    norm_num
    constructor <;> linarith only [s1.1, s1.2, r0.1, r0.2, r1.1, r1.2, b0.1, b0.2, b1.1, b1.2,
      x01.1, x01.2, hmag, hP]
  · rw [abs_le]
    norm_num
    constructor <;> linarith only [s2.1, s2.2, s1.1, s1.2, r0.1, r0.2, r1.1, r1.2, r2.1, r2.2,
      b0.1, b0.2, b1.1, b1.2, b2.1, b2.2, x012.1, x012.2, hmag, hP]
  · rw [abs_le]
    norm_num
    constructor <;> linarith only [e3.1, e3.2, hpa, hpb, hmag, hP]

/-- C12 fails at `t = 0.1f`: the four weights `cubicBezier` computes do not sum to 1,
and the blend of four copies of the point `(1, 1, 1)` is `(1 - 2^-23)` in every
coordinate. -/
theorem bezier_weights_counterexample :
    (0 : ℚ) ≤ lit0_1 ∧ lit0_1 ≤ 1 ∧
      (bezierWeights lit0_1).1 + (bezierWeights lit0_1).2.1 + (bezierWeights lit0_1).2.2.1
        + (bezierWeights lit0_1).2.2.2 ≠ 1 ∧
      cubicBezier ⟨1, 1, 1⟩ ⟨1, 1, 1⟩ ⟨1, 1, 1⟩ ⟨1, 1, 1⟩ lit0_1
        = ⟨8388607 / 8388608, 8388607 / 8388608, 8388607 / 8388608⟩ ∧
      cubicBezier ⟨1, 1, 1⟩ ⟨1, 1, 1⟩ ⟨1, 1, 1⟩ ⟨1, 1, 1⟩ lit0_1 ≠ ⟨1, 1, 1⟩ := by
  decide!

/-- Beyond the magnitude bound the blend leaves the binary32 range: with every
coordinate `FLT_MAX` and `t = 2^-26` the first sum rounds to `2^128`, which a `float`
does not hold. -/
theorem blend_exceeds_fltMax :
    fltMax < fadd (fmul (bezierWeights (1 / 2 ^ 26)).1 fltMax)
      (fmul (bezierWeights (1 / 2 ^ 26)).2.1 fltMax) := by
  decide!

/-- C12, amended.  For every `t` in `[0, 1]` the polynomial weights `(1-t)^3`,
`3(1-t)^2 t`, `3(1-t) t^2`, `t^3` sum to 1.  The binary32 weights `cubicBezier`
computes are these up to rounding: their sum is within `2^-19` of 1, and for a point
`p` whose coordinates are at most `2^127` in magnitude every coordinate of
`cubicBezier(p,p,p,p,t)` is within `|c| * 2^-18 + 2^-147` of the coordinate `c` of
`p`, no value rounded on the way exceeding `FLT_MAX` in magnitude.  At `t = 0` and
`t = 1` the result is `p` itself when `p` is a binary32 point. -/
theorem bezier_weights_sum (t : ℚ) (h0 : 0 ≤ t) (h1 : t ≤ 1) (p : Vec3)
    (hp : p.Within (2 ^ 127)) :
    (1 - t) ^ 3 + 3 * (1 - t) ^ 2 * t + 3 * (1 - t) * t ^ 2 + t ^ 3 = 1 ∧
      |(bezierWeights t).1 + (bezierWeights t).2.1 + (bezierWeights t).2.2.1
        + (bezierWeights t).2.2.2 - 1| ≤ 1 / 2 ^ 19 ∧
      |(cubicBezier p p p p t).x - p.x| ≤ |p.x| / 2 ^ 18 + 1 / 2 ^ 147 ∧
      |(cubicBezier p p p p t).y - p.y| ≤ |p.y| / 2 ^ 18 + 1 / 2 ^ 147 ∧
      |(cubicBezier p p p p t).z - p.z| ≤ |p.z| / 2 ^ 18 + 1 / 2 ^ 147 ∧
      (p.IsF32 → cubicBezier p p p p 0 = p ∧ cubicBezier p p p p 1 = p) ∧
      (∀ q ∈ weightSteps t, |q| ≤ fltMax) ∧
      (∀ q ∈ blendSteps (bezierWeights t) p.x p.x p.x p.x, |q| ≤ fltMax) ∧
      (∀ q ∈ blendSteps (bezierWeights t) p.y p.y p.y p.y, |q| ≤ fltMax) ∧
      (∀ q ∈ blendSteps (bezierWeights t) p.z p.z p.z p.z, |q| ≤ fltMax) := by
  have hsum : (1 - t) ^ 3 + 3 * (1 - t) ^ 2 * t + 3 * (1 - t) * t ^ 2 + t ^ 3 = 1 := by ring
  have hU : 0 ≤ 1 - t := by linarith
  have hW0 : 0 ≤ (1 - t) ^ 3 := by positivity
  have hW1 : 0 ≤ 3 * (1 - t) ^ 2 * t := by positivity
  have hW2 : 0 ≤ 3 * (1 - t) * t ^ 2 := by positivity
  have hW3 : 0 ≤ t ^ 3 := by positivity
  obtain ⟨⟨e0, e1, e2, e3⟩, hsteps⟩ := bezierWeights_error t h0 h1
  have hb := fun c : ℚ => blend_same_error (bezierWeights t) _ _ _ _ c hW0 hW1 hW2 hW3 hsum
    e0 e1 e2 e3
  have hs := fun c : ℚ => blend_same_steps (bezierWeights t) _ _ _ _ c hW0 hW1 hW2 hW3 hsum
    e0 e1 e2 e3
  have hflt : (4 : ℚ) ≤ fltMax := by unfold fltMax; norm_num
  have hpow : (2 : ℚ) ^ 127 = 170141183460469231731687303715884105728 := by norm_num
  rw [hpow] at hp
  obtain ⟨hx, hy, hz⟩ := hp
  refine ⟨hsum, ?_, ?_, ?_, ?_,
    fun hf => ⟨cubicBezier_zero _ _ _ _ hf, cubicBezier_one _ _ _ _ hf⟩,
    fun q hq => le_trans (hsteps q hq) hflt, hs p.x hx, hs p.y hy, hs p.z hz⟩
  · rw [abs_le] at e0 e1 e2 e3 ⊢
    norm_num at e0 e1 e2 e3 ⊢
    constructor <;> linarith
  · rw [cubicBezier_blend]
    exact hb p.x
  · rw [cubicBezier_blend]
    exact hb p.y
  · rw [cubicBezier_blend]
    exact hb p.z

/-- C12, amended, at `t = 0.1f` and the point `(1, 1, 1)`. -/
theorem bezier_weights_sum_witness :
    |(bezierWeights lit0_1).1 + (bezierWeights lit0_1).2.1 + (bezierWeights lit0_1).2.2.1
        + (bezierWeights lit0_1).2.2.2 - 1| ≤ 1 / 2 ^ 19 ∧
      |(cubicBezier ⟨1, 1, 1⟩ ⟨1, 1, 1⟩ ⟨1, 1, 1⟩ ⟨1, 1, 1⟩ lit0_1).x - 1|
        ≤ |(1 : ℚ)| / 2 ^ 18 + 1 / 2 ^ 147 ∧
      ∀ q ∈ blendSteps (bezierWeights lit0_1) 1 1 1 1, |q| ≤ fltMax :=
  ⟨(bezier_weights_sum lit0_1 (by decide!) (by decide!) ⟨1, 1, 1⟩ (by decide!)).2.1,
    (bezier_weights_sum lit0_1 (by decide!) (by decide!) ⟨1, 1, 1⟩ (by decide!)).2.2.1,
    (bezier_weights_sum lit0_1 (by decide!) (by decide!) ⟨1, 1, 1⟩
      (by decide!)).2.2.2.2.2.2.2.1⟩

/-! ## the parser reads back the text of a face record -/

theorem ofNat_digit (d : Nat) (h : d < 10) : (Char.ofNat (48 + d)).toNat = 48 + d := by
  interval_cases d <;> rfl

theorem ofNat_isDigit (d : Nat) (h : d < 10) : isDigit (Char.ofNat (48 + d)) = true := by
  interval_cases d <;> rfl

theorem showDigits_isDigit (fuel : Nat) : ∀ (n : Nat) (acc : List Char),
    (∀ c ∈ acc, isDigit c = true) → ∀ c ∈ showDigits fuel n acc, isDigit c = true := by
  induction fuel with
  | zero => intro n acc h; simpa [showDigits] using h
  | succ fuel ih =>
    intro n acc h
    simp only [showDigits]
    split_ifs with hn
    · intro c hc
      rcases List.mem_cons.mp hc with rfl | hc
      · exact ofNat_isDigit n hn
      · exact h c hc
    · apply ih
      intro c hc
      rcases List.mem_cons.mp hc with rfl | hc
      · exact ofNat_isDigit _ (Nat.mod_lt _ (by decide))
      · exact h c hc

theorem showDigits_ne_nil (fuel : Nat) : ∀ (n : Nat) (acc : List Char),
    (0 < fuel ∨ acc ≠ []) → showDigits fuel n acc ≠ [] := by
  induction fuel with
  | zero =>
    intro n acc h
    rcases h with h | h
    · exact absurd h (lt_irrefl 0)
    · simpa [showDigits] using h
  | succ fuel ih =>
    intro n acc _
    simp only [showDigits]
    split_ifs with hn
    · exact List.cons_ne_nil _ _
    · exact ih _ _ (Or.inr (List.cons_ne_nil _ _))

theorem showDigits_fold (fuel : Nat) : ∀ (n : Nat) (acc : List Char), n < fuel →
    (showDigits fuel n acc).foldl (fun m c => 10 * m + (c.toNat - 48)) 0
      = acc.foldl (fun m c => 10 * m + (c.toNat - 48)) n := by
  induction fuel with
  | zero => intro n acc h; exact absurd h (Nat.not_lt_zero n)
  | succ fuel ih =>
    intro n acc h
    simp only [showDigits]
    split_ifs with hn
    · simp only [List.foldl_cons, ofNat_digit n hn]
      congr 1
      omega
    · rw [ih (n / 10) _ (by omega)]
      simp only [List.foldl_cons, ofNat_digit _ (Nat.mod_lt n (by decide : 0 < 10))]
      congr 1
      omega

theorem showNat_isDigit (n : Nat) : ∀ c ∈ showNat n, isDigit c = true :=
  showDigits_isDigit _ _ _ (by simp)

theorem showNat_ne_nil (n : Nat) : showNat n ≠ [] :=
  showDigits_ne_nil _ _ _ (Or.inl (Nat.succ_pos n))

theorem digitsToNat_showNat (n : Nat) : digitsToNat (showNat n) = n := by
  simp only [digitsToNat, showNat]
  rw [showDigits_fold _ _ _ (Nat.lt_succ_self n)]
  rfl

theorem isDigit_facts (c : Char) (h : isDigit c = true) :
    isSpace c = false ∧ c.toNat ≠ 47 ∧ c.toNat ≠ 45 ∧ c.toNat ≠ 43 := by
  simp only [isDigit, Bool.and_eq_true, decide_eq_true_eq] at h
  simp only [isSpace, Bool.or_eq_false_iff, Bool.and_eq_false_iff, decide_eq_false_iff_not]
  refine ⟨⟨by omega, by omega⟩, by omega, by omega, by omega⟩

theorem dropWhile_run (p : Char → Bool) (ws rest : List Char) (hws : ws.all p = true)
    (hrest : ∀ c ∈ rest.head?, p c = false) : (ws ++ rest).dropWhile p = rest := by
  induction ws with
  | nil =>
    cases rest with
    | nil => rfl
    | cons c cs =>
      have := hrest c (by simp)
      simp [List.dropWhile, this]
  | cons w ws ih =>
    simp only [List.all_cons, Bool.and_eq_true] at hws
    simp only [List.cons_append, List.dropWhile, hws.1]
    exact ih hws.2

theorem takeWhile_run (p : Char → Bool) (ws rest : List Char) (hws : ws.all p = true)
    (hrest : ∀ c ∈ rest.head?, p c = false) : (ws ++ rest).takeWhile p = ws := by
  induction ws with
  | nil =>
    cases rest with
    | nil => rfl
    | cons c cs =>
      have := hrest c (by simp)
      simp [List.takeWhile, this]
  | cons w ws ih =>
    simp only [List.all_cons, Bool.and_eq_true] at hws
    simp only [List.cons_append, List.takeWhile, hws.1]
    exact congrArg (List.cons w) (ih hws.2)

theorem sentry_skip (ws body : List Char) (hws : ws.all isSpace = true) (hb : body ≠ [])
    (hh : ∀ c ∈ body.head?, isSpace c = false) :
    IStream.sentry ⟨ws ++ body, false, false⟩ = (true, ⟨body, false, false⟩) := by
  simp only [IStream.sentry, IStream.good, Bool.not_false, Bool.and_self, if_true]
  rw [dropWhile_run isSpace ws body hws hh]
  cases body with
  | nil => exact absurd rfl hb
  | cons c cs => rfl

theorem readWord_word (ws w rest : List Char) (hws : ws.all isSpace = true) (hw : w ≠ [])
    (hwc : ∀ c ∈ w, isSpace c = false) (hrest : ∀ c ∈ rest.head?, isSpace c = true) :
    IStream.readWord ⟨ws ++ (w ++ rest), false, false⟩
      = (some w, ⟨rest, rest.isEmpty, false⟩) := by
  have hhead : ∀ c ∈ (w ++ rest).head?, isSpace c = false := by
    cases w with
    | nil => exact absurd rfl hw
    | cons c cs =>
      intro d hd
      simp only [List.cons_append, List.head?_cons, Option.mem_def, Option.some.injEq] at hd
      subst hd
      exact hwc _ (List.mem_cons_self _ _)
  have hall : w.all (fun c => !isSpace c) = true := by
    rw [List.all_eq_true]
    intro c hc
    simp [hwc c hc]
  have hrest2 : ∀ c ∈ rest.head?, (fun c => !isSpace c) c = false := by
    intro c hc
    simp [hrest c hc]
  simp only [IStream.readWord]
  rw [sentry_skip ws (w ++ rest) hws (by simp [hw]) hhead]
  simp only
  rw [takeWhile_run _ w rest hall hrest2, dropWhile_run _ w rest hall hrest2]

theorem scanSign_digit (cs : List Char) (h : ∀ c ∈ cs.head?, isDigit c = true) :
    scanSign cs = (false, cs) := by
  cases cs with
  | nil => rfl
  | cons c cs =>
    obtain ⟨-, -, h45, h43⟩ := isDigit_facts c (h c (by simp))
    simp [scanSign, h45, h43]

theorem readUInt_showNat (ws rest : List Char) (n : Nat) (hn : n ≤ uintMax)
    (hws : ws.all isSpace = true) (hrest : ∀ c ∈ rest.head?, isDigit c = false) :
    IStream.readUInt ⟨ws ++ (showNat n ++ rest), false, false⟩
      = (some n, ⟨rest, rest.isEmpty, false⟩) := by
  have hne := showNat_ne_nil n
  have hdig := showNat_isDigit n
  have hhead : ∀ c ∈ (showNat n ++ rest).head?, isDigit c = true := by
    cases hs : showNat n with
    | nil => exact absurd hs hne
    | cons c cs =>
      intro d hd
      simp only [List.cons_append, List.head?_cons, Option.mem_def, Option.some.injEq] at hd
      subst hd
      exact hdig _ (by rw [hs]; exact List.mem_cons_self _ _)
  have hall : (showNat n).all isDigit = true := by
    rw [List.all_eq_true]
    exact hdig
  simp only [IStream.readUInt]
  rw [sentry_skip ws (showNat n ++ rest) hws (by simp [hne])
    (fun c hc => (isDigit_facts c (hhead c hc)).1)]
  simp only
  rw [scanSign_digit _ hhead]
  simp only
  rw [takeWhile_run _ _ rest hall hrest, dropWhile_run _ _ rest hall hrest,
    digitsToNat_showNat]
  have h1 : (showNat n).isEmpty = false := by
    cases hs : showNat n with
    | nil => exact absurd hs hne
    | cons c cs => rfl
  simp [h1, Nat.not_lt.mpr hn]

theorem map_slash_digits (ds : List Char) (h : ∀ c ∈ ds, isDigit c = true) :
    ds.map (fun c => if c.toNat = 47 then Char.ofNat 32 else c) = ds := by
  induction ds with
  | nil => rfl
  | cons c cs ih =>
    have h47 := (isDigit_facts c (h c (List.mem_cons_self _ _))).2.1
    simp only [List.map_cons, h47, if_false]
    rw [ih (fun d hd => h d (List.mem_cons_of_mem _ hd))]

theorem refText_facts (r : Nat × Nat × Nat) :
    refText r ≠ [] ∧ (∀ c ∈ refText r, isSpace c = false) ∧
      (refText r).map (fun c => if c.toNat = 47 then Char.ofNat 32 else c)
        = showNat r.1 ++ ' ' :: (showNat r.2.1 ++ ' ' :: showNat r.2.2) := by
  refine ⟨?_, ?_, ?_⟩
  · simp [refText, showNat_ne_nil]
  · intro c hc
    simp only [refText, List.mem_append, List.mem_cons] at hc
    rcases hc with hc | rfl | hc | rfl | hc
    · exact (isDigit_facts c (showNat_isDigit _ c hc)).1
    · rfl
    · exact (isDigit_facts c (showNat_isDigit _ c hc)).1
    · rfl
    · exact (isDigit_facts c (showNat_isDigit _ c hc)).1
  · simp only [refText, List.map_append, List.map_cons,
      map_slash_digits _ (showNat_isDigit _)]
    rfl

theorem readFaceRef_refText (ws rest : List Char) (r : Nat × Nat × Nat)
    (hfit : r.1 ≤ uintMax ∧ r.2.1 ≤ uintMax ∧ r.2.2 ≤ uintMax)
    (hws : ws.all isSpace = true) (hrest : ∀ c ∈ rest.head?, isSpace c = true) :
    readFaceRef ⟨ws ++ (refText r ++ rest), false, false⟩
      = (FaceRef.ofTriple r, ⟨rest, rest.isEmpty, false⟩) := by
  obtain ⟨hne, hns, hmap⟩ := refText_facts r
  have hsp : ∀ c ∈ (' ' :: ([] : List Char)).head?, True := fun _ _ => trivial
  have h1 := readUInt_showNat [] (' ' :: (showNat r.2.1 ++ ' ' :: showNat r.2.2)) r.1
    hfit.1 rfl (by intro c hc; simp at hc; subst hc; rfl)
  have h2 := readUInt_showNat [' '] (' ' :: showNat r.2.2) r.2.1
    hfit.2.1 rfl (by intro c hc; simp at hc; subst hc; rfl)
  have h3 := readUInt_showNat [' '] [] r.2.2 hfit.2.2 rfl (by intro c hc; simp at hc)
  simp only [List.nil_append, List.cons_append, List.append_nil, List.isEmpty_cons] at h1 h2 h3
  simp only [readFaceRef, readWord_word ws (refText r) rest hws hne hns hrest,
    Option.getD_some, hmap, IStream.ofChars, h1, h2, h3, FaceRef.ofTriple]

theorem head_gap (gap more : List Char) (hne : gap ≠ []) (hall : gap.all isSpace = true) :
    ∀ c ∈ (gap ++ more).head?, isSpace c = true := by
  cases gap with
  | nil => exact absurd rfl hne
  | cons g gs =>
    intro c hc
    simp only [List.cons_append, List.head?_cons, Option.mem_def, Option.some.injEq] at hc
    subst hc
    simp only [List.all_cons, Bool.and_eq_true] at hall
    exact hall.1

theorem head_trail (trail : List Char) (hall : trail.all isSpace = true) :
    ∀ c ∈ trail.head?, isSpace c = true := by
  cases trail with
  | nil => intro c hc; simp at hc
  | cons g gs =>
    intro c hc
    simp only [List.head?_cons, Option.mem_def, Option.some.injEq] at hc
    subst hc
    simp only [List.all_cons, Bool.and_eq_true] at hall
    exact hall.1

theorem isEmpty_gap (gap more : List Char) (hne : gap ≠ []) : (gap ++ more).isEmpty = false := by
  cases gap with
  | nil => exact absurd rfl hne
  | cons g gs => rfl

theorem lineFaceRefs_face (f : FaceLine) (hw : f.WellSpaced)
    (hfit : refsFit [f.a, f.b, f.c]) :
    lineFaceRefs f.text
      = [FaceRef.ofTriple f.a, FaceRef.ofTriple f.b, FaceRef.ofTriple f.c] := by
  obtain ⟨hl, ⟨n1, g1⟩, ⟨n2, g2⟩, ⟨n3, g3⟩, ht⟩ := hw
  have fa := hfit f.a (by simp)
  have fb := hfit f.b (by simp)
  have fc := hfit f.c (by simp)
  have htag : readTag f.text = ("f".toList,
      ⟨f.gap1 ++ (refText f.a ++ (f.gap2 ++ (refText f.b ++ (f.gap3 ++
        (refText f.c ++ f.trail))))), false, false⟩) := by
    simp only [readTag, IStream.ofLine, FaceLine.text, String.toList]
    have := readWord_word f.lead ['f'] (f.gap1 ++ (refText f.a ++ (f.gap2 ++ (refText f.b ++
      (f.gap3 ++ (refText f.c ++ f.trail)))))) hl (by simp)
      (by intro c hc; simp at hc; subst hc; rfl) (head_gap _ _ n1 g1)
    simp only [List.cons_append, List.nil_append, isEmpty_gap _ _ n1] at this
    rw [this]
    rfl
  simp only [lineFaceRefs, htag, if_true, readFaceRefs]
  rw [readFaceRef_refText f.gap1 _ f.a fa g1 (head_gap _ _ n2 g2)]
  simp only [isEmpty_gap _ _ n2]
  rw [readFaceRef_refText f.gap2 _ f.b fb g2 (head_gap _ _ n3 g3)]
  simp only [isEmpty_gap _ _ n3]
  rw [readFaceRef_refText f.gap3 _ f.c fc g3 (head_trail _ ht)]

theorem readTag_firstWord (l : Line) : (readTag l).1 = firstWord l := by
  simp only [readTag, firstWord, IStream.readWord, IStream.sentry, IStream.ofLine,
    IStream.good, Bool.not_false, Bool.and_self, if_true]
  cases h : l.toList.dropWhile isSpace with
  | nil => rfl
  | cons c cs => rfl

theorem lineFaceRefs_other (l : Line) (h : firstWord l ≠ "f".toList) :
    lineFaceRefs l = [] := by
  simp only [lineFaceRefs, readTag_firstWord, h, if_false]

theorem faceRefs_records (recs : List ObjRecord) (hform : ∀ r ∈ recs, r.WellFormed)
    (hfit : refsFit (fileRefs recs)) :
    faceRefs (recs.map ObjRecord.text) = (fileRefs recs).map FaceRef.ofTriple ∧
      (fileRefs recs).length = 3 * faceCount recs := by
  induction recs with
  | nil => exact ⟨rfl, rfl⟩
  | cons r rs ih =>
    have hr := hform r (List.mem_cons_self _ _)
    have hrs : ∀ q ∈ rs, q.WellFormed := fun q hq => hform q (List.mem_cons_of_mem _ hq)
    cases r with
    | face f =>
      have hf1 : refsFit [f.a, f.b, f.c] := by
        intro q hq
        apply hfit q
        simp only [fileRefs, List.mem_cons] at hq ⊢
        rcases hq with rfl | rfl | rfl | hq
        · exact Or.inl rfl
        · exact Or.inr (Or.inl rfl)
        · exact Or.inr (Or.inr (Or.inl rfl))
        · simp at hq
      have hf2 : refsFit (fileRefs rs) := by
        intro q hq
        apply hfit q
        simp only [fileRefs, List.mem_cons]
        exact Or.inr (Or.inr (Or.inr hq))
      obtain ⟨e1, e2⟩ := ih hrs hf2
      constructor
      · simp only [List.map_cons, faceRefs, ObjRecord.text, fileRefs,
          lineFaceRefs_face f hr hf1, e1]
        rfl
      · simp only [fileRefs, faceCount, List.length_cons, e2]
        omega
    | other l =>
      obtain ⟨e1, e2⟩ := ih hrs hfit
      constructor
      · simp only [List.map_cons, faceRefs, ObjRecord.text, fileRefs,
          lineFaceRefs_other l hr, e1, List.nil_append]
      · simpa only [fileRefs, faceCount] using e2

theorem castInt_small (n : Nat) (h : n < 2147483648) : castInt n = (n : Int) := by
  have h1 : n % 4294967296 = n := Nat.mod_eq_of_lt (by omega)
  simp only [castInt, h1, h, if_true]

/-! ## C4: faces are expanded in file order -/

/-- C4.  Take a model file made of triangular face records `f v/vt/vn v/vt/vn v/vt/vn`
(decimal indices, any white space around the words) and of lines whose first word
is not `f`, with every index at most `UINT_MAX` and `1 ≤ index ≤ size` of the parsed
array.  Then `loadModelWithTexture` returns the mesh whose buffer holds one vertex of
8 floats for every reference written in the file, in file order, the `k`-th being
`position[v-1]`, `uv[vt-1]`, `normal[vn-1]` of the `k`-th reference, three for every
face record; the vertex count is `(int)` of the number of references, which is that
number while it is below `2^31`. -/
theorem loadModel_expands_faces (newVAO : Nat) (loadTexture : String → Nat)
    (textureFilePath : String) (recs : List ObjRecord)
    (hform : ∀ r ∈ recs, r.WellFormed)
    (hfit : refsFit (fileRefs recs))
    (hrange : refsInRange (parseModel (recs.map ObjRecord.text)) (fileRefs recs)) :
    loadModelWithTexture newVAO loadTexture (some (recs.map ObjRecord.text)) textureFilePath
        = LoadResult.loaded newVAO
          (expandRefs (parseModel (recs.map ObjRecord.text)) (fileRefs recs))
          (castInt (3 * faceCount recs))
          (if textureFilePath.isEmpty then 0 else loadTexture textureFilePath) ∧
      (3 * faceCount recs < 2147483648 → castInt (3 * faceCount recs) = 3 * faceCount recs) ∧
      (fileRefs recs).length = 3 * faceCount recs ∧
      (expandRefs (parseModel (recs.map ObjRecord.text)) (fileRefs recs)).length
        = 8 * (3 * faceCount recs) ∧
      ∀ (k : Nat) (r : Nat × Nat × Nat), (fileRefs recs)[k]? = some r →
        ((expandRefs (parseModel (recs.map ObjRecord.text)) (fileRefs recs)).drop
            (8 * k)).take 8
          = vertexFloats (parseModel (recs.map ObjRecord.text)) r := by
  obtain ⟨e1, e2⟩ := faceRefs_records recs hform hfit
  refine ⟨?_, fun h => by exact_mod_cast castInt_small _ h, e2, ?_, expandRefs_slice _ _⟩
  · rw [← e2]
    exact loadModel_of_parsed_refs newVAO loadTexture textureFilePath _ _ e1 hrange
  · rw [← e2]
    exact expandRefs_length _ _

/-- C4 on a file with 3 `v`, 3 `vt`, 3 `vn` and 1 `f` whose references are `1/2/3`,
`2/3/1`, `3/1/2`: three vertices in the order of the face line, each with the position,
the texture coordinate and the normal its reference names, and vertex count 3. -/
theorem loadModel_expands_faces_witness :
    mixedObj.map ObjRecord.text =
        ["v 0 0 0", "v 1 0 0", "v 0 1 0", "vt 0 0", "vt 1 0", "vt 0 1",
          "vn 0 0 1", "vn 0 1 0", "vn 1 0 0", "f 1/2/3 2/3/1 3/1/2"] ∧
      loadModelWithTexture 7 (fun _ => 5) (some (mixedObj.map ObjRecord.text)) "" =
        LoadResult.loaded 7
          [some 0, some 0, some 0, some 1, some 0, some 1, some 0, some 0,
            some 1, some 0, some 0, some 0, some 1, some 0, some 0, some 1,
            some 0, some 1, some 0, some 0, some 0, some 0, some 1, some 0] 3 0 :=
  ⟨by decide!,
    (loadModel_expands_faces 7 (fun _ => 5) "" mixedObj (by decide!) (by decide!)
      (by decide!)).1.trans (by decide!)⟩

end Hello3D
